import Mathlib

/-!
Verification development for the experimental HTTP/2 codec
(`proxygen/lib/http/codec/experimental/HTTP2Codec.cpp`).

The codec is embedded shallowly: the mutable members of `HTTP2Codec` become a
`CodecState` record, each parse/generate member function becomes a pure Lean
function threading that record, callback invocations become an emitted list of
`Event`s, and wire bytes are `List Nat` (one `Nat` per octet, reduced mod 256
where values are combined).  Functions translated from `HTTP2Codec.cpp` carry
the source name.  Collaborators that the repository treats as external (the
frame serializer `http2::parse*`/`http2::write*`, the `SPDYUtil` validators,
the HPACK compression engine, the settings store) are modelled from the
specification and say so in their doc comments.
-/

set_option maxHeartbeats 1000000

namespace HTTP2

/-- HTTP/2 standard connection error codes (`ErrorCode` enum). -/
inductive ErrorCode where
  | NO_ERROR
  | PROTOCOL_ERROR
  | INTERNAL_ERROR
  | FLOW_CONTROL_ERROR
  | SETTINGS_TIMEOUT
  | STREAM_CLOSED
  | FRAME_SIZE_ERROR
  | REFUSED_STREAM
  | CANCEL
  | COMPRESSION_ERROR
  | CONNECT_ERROR
  | ENHANCE_YOUR_CALM
  | INADEQUATE_SECURITY
  | HTTP_1_1_REQUIRED
deriving DecidableEq, Repr

/-- Codec role: client side (`UPSTREAM`) or server side (`DOWNSTREAM`). -/
inductive TransportDirection where
  | UPSTREAM
  | DOWNSTREAM
deriving DecidableEq, Repr

/-- The GOAWAY lifecycle state (`HTTP2Codec::ClosingState`). -/
inductive ClosingState where
  | OPEN
  | FIRST_GOAWAY_SENT
  | CLOSED
deriving DecidableEq, Repr

/-- Parsed common frame header (`http2::FrameHeader`): 24-bit length, 8-bit
type, 8-bit flags, 31-bit stream id. -/
structure FrameHeader where
  length : Nat
  ftype : Nat
  flags : Nat
  stream : Nat
deriving DecidableEq, Repr

/-- Frame type codes from the HTTP/2 wire format. -/
def kFrameData : Nat := 0

def kFrameHeaders : Nat := 1

def kFramePriority : Nat := 2

def kFrameRstStream : Nat := 3

def kFrameSettings : Nat := 4

def kFramePushPromise : Nat := 5

def kFramePing : Nat := 6

def kFrameGoaway : Nat := 7

def kFrameWindowUpdate : Nat := 8

def kFrameContinuation : Nat := 9

def kFrameAltSvc : Nat := 10

/-- Frame flag bits (`http2` constants). -/
def kFlagEndStream : Nat := 1

def kFlagAck : Nat := 1

def kFlagEndHeaders : Nat := 4

def kFlagPadded : Nat := 8

def kFlagPriority : Nat := 32

/-- Test a flag bit of a frame header's flags byte. -/
def testFlag (flags bit : Nat) : Bool := flags &&& bit != 0

/-- Settings identifiers from the HTTP/2 wire format (`SettingsId`). -/
def kSettingHeaderTableSize : Nat := 1

def kSettingEnablePush : Nat := 2

def kSettingMaxConcurrentStreams : Nat := 3

def kSettingInitialWindowSize : Nat := 4

def kSettingMaxFrameSize : Nat := 5

def kSettingMaxHeaderListSize : Nat := 6

/-- Numeric limits used by the codec: `INT32_MAX`, `UINT32_MAX`,
`http2::kMaxWindowUpdateSize = 2^31 - 1`, and the MAX_FRAME_SIZE legal range
`[http2::kMaxFramePayloadLengthMin, http2::kMaxFramePayloadLength]`. -/
def kInt32Max : Nat := 2147483647

def kUInt32Max : Nat := 4294967295

def kMaxWindowUpdateSize : Nat := 2147483647

def kMaxFramePayloadLengthMin : Nat := 16384

def kMaxFramePayloadLength : Nat := 16777215

/-- Big-endian value of a byte list (each entry reduced mod 256). -/
def beVal (l : List Nat) : Nat := l.foldl (fun a b => a * 256 + b % 256) 0

/-- Read a 31-bit value from the first four bytes (reserved top bit dropped). -/
def read31 (l : List Nat) : Nat := beVal (l.take 4) % 2147483648

/-- Read a full 32-bit value from the first four bytes. -/
def read32 (l : List Nat) : Nat := beVal (l.take 4)

/-- Serialize a value as four big-endian bytes. -/
def be32 (n : Nat) : List Nat :=
  [n / 16777216 % 256, n / 65536 % 256, n / 256 % 256, n % 256]

/-- Serialize a value as three big-endian bytes. -/
def be24 (n : Nat) : List Nat := [n / 65536 % 256, n / 256 % 256, n % 256]

/-- Serialize a value as eight big-endian bytes. -/
def be64 (n : Nat) : List Nat := be32 (n / 4294967296) ++ be32 n

/-- Modelled from the spec: the 9-byte common frame header layout (§6); the
serializer (`http2::writeFrameHeader`) is not part of the repository core. -/
def frameHeaderBytes (len ftype flags stream : Nat) : List Nat :=
  be24 len ++ [ftype % 256, flags % 256] ++ be32 (stream % 2147483648)

/-- The 24-byte client connection preface
`PRI * HTTP/2.0\r\n\r\nSM\r\n\r\n` as ASCII codes. -/
def prefaceBytes : List Nat :=
  [80, 82, 73, 32, 42, 32, 72, 84, 84, 80, 47, 50, 46, 48,
   13, 10, 13, 10, 83, 77, 13, 10, 13, 10]

/-- Modelled from the spec: parse the 9-byte common frame header (§6).  The
real `http2::parseFrameHeader` lives in the frame serializer, outside src/. -/
def parseFrameHeaderBytes (b : List Nat) : FrameHeader :=
  { length := beVal (b.take 3)
    ftype := b.getD 3 0 % 256
    flags := b.getD 4 0 % 256
    stream := beVal ((b.drop 5).take 4) % 2147483648 }

/-- The HTTP message object the codec fills during parse; modelled from the
spec (§3): the real `HTTPMessage` is an external collaborator. -/
structure HTTPMessage where
  method : String := ""
  url : String := ""
  secure : Bool := false
  statusCode : Nat := 0
  headers : List (String × String) := []
deriving DecidableEq, Repr

/-- One callback invocation on the codec's event sink (§6 event contract).
`onError` carries the codec status code for connection errors and the HTTP
status for stream errors. -/
inductive Event where
  | onMessageBegin (stream : Nat) (msg : Option HTTPMessage)
  | onPushMessageBegin (promised : Nat) (assoc : Nat) (msg : Option HTTPMessage)
  | onHeadersComplete (stream : Nat) (msg : HTTPMessage)
  | onBody (stream : Nat) (data : List Nat)
  | onMessageComplete (stream : Nat) (upgrade : Bool)
  | onAbort (stream : Nat) (code : Nat)
  | onGoaway (lastGood : Nat) (code : Nat)
  | onPingRequest (data : Nat)
  | onPingReply (data : Nat)
  | onSettings (settings : List (Nat × Nat))
  | onSettingsAck
  | onWindowUpdate (stream : Nat) (delta : Nat)
  | onError (stream : Nat) (codecCode : Option ErrorCode)
      (httpStatus : Option Nat) (newTxn : Bool)
deriving DecidableEq, Repr

/-- Modelled from the spec: the settings store (§3) is a keyed map of 32-bit
values with an is-set bit; we keep the explicitly-set entries as an
association list.  `setSetting` updates in place or appends. -/
def setSetting : List (Nat × Nat) → Nat → Nat → List (Nat × Nat)
  | [], id, v => [(id, v)]
  | p :: t, id, v => if p.1 = id then (id, v) :: t else p :: setSetting t id v

/-- Look up an explicitly-set setting value. -/
def getSettingVal (m : List (Nat × Nat)) (id : Nat) : Option Nat :=
  (m.find? (fun p => p.1 == id)).map Prod.snd

/-- Modelled from the spec: RFC-7230 token characters, used by the `SPDYUtil`
header-name validator (not in src/). -/
def isTokenChar (c : Char) : Bool :=
  c.isAlphanum ||
    [33, 35, 36, 37, 38, 39, 42, 43, 45, 46, 94, 95, 96, 124, 126].contains c.toNat

/-- Modelled from the spec: `SPDYUtil::validateMethod` — the source comments
note it "just checks for alpha chars". -/
def validateMethod (s : String) : Bool := s.data.all (·.isAlpha)

/-- Modelled from the spec: `SPDYUtil::validateURL` — the `:path` value must
be a valid URL path; we require nonempty visible characters. -/
def validateURL (s : String) : Bool :=
  !s.data.isEmpty &&
    s.data.all (fun c => (33 ≤ c.toNat && c.toNat ≤ 126) || 128 ≤ c.toNat)

/-- Modelled from the spec: `SPDYUtil::validateHeaderName` — nonempty RFC-7230
token. -/
def validateHeaderName (s : String) : Bool :=
  !s.data.isEmpty && s.data.all isTokenChar

/-- Modelled from the spec: `SPDYUtil::validateHeaderValue(.., STRICT)` — no
control characters. -/
def validateHeaderValue (s : String) : Bool :=
  s.data.all (fun c => c.toNat == 9 || (32 ≤ c.toNat && c.toNat ≠ 127))

/-- Whether a header name begins with ':' (pseudo-header test). -/
def startsWithColon (s : String) : Bool :=
  match s.data with
  | [] => false
  | c :: _ => c = ':'

/-- ASCII lowercase of a string (used for the code-based `Cookie` lookup). -/
def lowerStr (s : String) : String := String.mk (s.data.map Char.toLower)

/-- Modelled from the spec: `folly::to<unsigned>` applied to the `:status`
value — all-digit strings parse, anything else throws (becomes `none`). -/
def statusFromString (s : String) : Option Nat :=
  if s.data ≠ [] ∧ s.data.all Char.isDigit then
    some (s.data.foldl (fun a c => a * 10 + (c.toNat - 48)) 0)
  else
    none

/-- `HTTPHeaders::combine(HTTP_HEADER_COOKIE, "; ")`: join all Cookie values
(code-based lookup is case-insensitive) with a `"; "` separator. -/
def combineCookies (hs : List (String × String)) : String :=
  String.intercalate "; "
    ((hs.filter (fun p => lowerStr p.1 == "cookie")).map Prod.snd)

/-- `HTTPHeaders::set(HTTP_HEADER_COOKIE, v)`: drop all Cookie headers and add
the single combined one. -/
def setCookieHeader (hs : List (String × String)) (v : String) :
    List (String × String) :=
  hs.filter (fun p => !(lowerStr p.1 == "cookie")) ++ [("Cookie", v)]

/-- The request pseudo-header accumulator of `HTTP2Codec.cpp`
(`HTTPRequestVerifier`): per-pseudo-header "seen" flags plus a deferred error
string, writing through to the message under construction. -/
structure HTTPRequestVerifier where
  msg : HTTPMessage
  hasMethod : Bool := false
  hasPath : Bool := false
  hasScheme : Bool := false
  hasAuthority : Bool := false
  error : String := ""
deriving DecidableEq, Repr

/-- `HTTPRequestVerifier::setMethod`. -/
def HTTPRequestVerifier.setMethod (v : HTTPRequestVerifier) (m : String) :
    HTTPRequestVerifier × Bool :=
  if v.hasMethod then ({ v with error := "Duplicate method" }, false)
  else if !validateMethod m then ({ v with error := "Invalid method" }, false)
  else ({ v with hasMethod := true, msg := { v.msg with method := m } }, true)

/-- `HTTPRequestVerifier::setPath`. -/
def HTTPRequestVerifier.setPath (v : HTTPRequestVerifier) (p : String) :
    HTTPRequestVerifier × Bool :=
  if v.hasPath then ({ v with error := "Duplicate path" }, false)
  else if !validateURL p then ({ v with error := "Invalid url" }, false)
  else ({ v with hasPath := true, msg := { v.msg with url := p } }, true)

/-- `HTTPRequestVerifier::setScheme` (validated with the alpha-only check;
`https` sets the secure bit). -/
def HTTPRequestVerifier.setScheme (v : HTTPRequestVerifier) (s : String) :
    HTTPRequestVerifier × Bool :=
  if v.hasScheme then ({ v with error := "Duplicate scheme" }, false)
  else if !validateMethod s then ({ v with error := "Invalid scheme" }, false)
  else
    ({ v with
        hasScheme := true
        msg := if s = "https" then { v.msg with secure := true } else v.msg },
      true)

/-- `HTTPRequestVerifier::setAuthority` (stored as a `Host` header). -/
def HTTPRequestVerifier.setAuthority (v : HTTPRequestVerifier) (a : String) :
    HTTPRequestVerifier × Bool :=
  if v.hasAuthority then ({ v with error := "Duplicate authority" }, false)
  else if !validateHeaderValue a then
    ({ v with error := "Invalid authority" }, false)
  else
    ({ v with
        hasAuthority := true
        msg := { v.msg with headers := v.msg.headers ++ [("Host", a)] } },
      true)

/-- `HTTPRequestVerifier::validate`: request-shape completeness, with the
CONNECT exception. -/
def HTTPRequestVerifier.validate (v : HTTPRequestVerifier) :
    HTTPRequestVerifier :=
  if v.error ≠ "" then v
  else if v.msg.method = "CONNECT" ∧
      (!v.hasMethod ∨ !v.hasAuthority ∨ v.hasScheme ∨ v.hasPath) then
    { v with error := "Malformed CONNECT request" }
  else if !v.hasMethod ∨ !v.hasScheme ∨ !v.hasPath then
    { v with error := "Malformed request" }
  else v

/-- How the header-validation loop of `parseHeaderList` exits: an early
`return` with an error string, a `break` out of the loop (failed verifier
setter), or normal completion. -/
inductive PHLExit where
  | ret (e : String)
  | brk (v : HTTPRequestVerifier) (hasStatus : Bool)
  | fin (v : HTTPRequestVerifier) (hasStatus : Bool)
deriving DecidableEq, Repr

/-- The per-pair loop of `HTTP2Codec::parseHeaderList`, processing the flat
name/value list in order. -/
def parseHeaderListLoop (isRequest : Bool) :
    List (String × String) → HTTPRequestVerifier → Bool → Bool → PHLExit
  | [], v, hasStatus, _ => .fin v hasStatus
  | (n, val) :: rest, v, hasStatus, regularHeaderSeen =>
    if startsWithColon n then
      if regularHeaderSeen then .ret "Illegal pseudo header"
      else if isRequest then
        if n = ":method" then
          match v.setMethod val with
          | (v', true) => parseHeaderListLoop isRequest rest v' hasStatus regularHeaderSeen
          | (v', false) => .brk v' hasStatus
        else if n = ":scheme" then
          match v.setScheme val with
          | (v', true) => parseHeaderListLoop isRequest rest v' hasStatus regularHeaderSeen
          | (v', false) => .brk v' hasStatus
        else if n = ":authority" then
          match v.setAuthority val with
          | (v', true) => parseHeaderListLoop isRequest rest v' hasStatus regularHeaderSeen
          | (v', false) => .brk v' hasStatus
        else if n = ":path" then
          match v.setPath val with
          | (v', true) => parseHeaderListLoop isRequest rest v' hasStatus regularHeaderSeen
          | (v', false) => .brk v' hasStatus
        else .ret "Invalid header name"
      else
        if n = ":status" then
          if hasStatus then .ret "Duplicate status"
          else
            match statusFromString val with
            | some code =>
              if 100 ≤ code ∧ code ≤ 999 then
                parseHeaderListLoop isRequest rest
                  { v with msg := { v.msg with statusCode := code } } true
                  regularHeaderSeen
              else .ret "Malformed status code"
            | none => .ret "Malformed status code"
        else .ret "Invalid header name"
    else
      if n = "connection" then .ret "HTTP2 Message with Connection header"
      else
        let nameOk := validateHeaderName n
        let valueOk := validateHeaderValue val
        let v' := { v with msg := { v.msg with headers := v.msg.headers ++ [(n, val)] } }
        if !(nameOk && valueOk) then .ret "Bad header value"
        else parseHeaderListLoop isRequest rest v' hasStatus true

/-- The epilogue of `parseHeaderList` after the loop exits normally or via
`break`: Cookie coalescing plus `verifier.validate()` on requests, the
`:status` presence check on responses, then the deferred verifier error. -/
def parseHeaderListFinish (isRequest : Bool) (v : HTTPRequestVerifier)
    (hasStatus : Bool) : Except String HTTPMessage :=
  if isRequest then
    let combined := combineCookies v.msg.headers
    let v :=
      if combined ≠ "" then
        { v with msg := { v.msg with headers := setCookieHeader v.msg.headers combined } }
      else v
    let v := v.validate
    if v.error ≠ "" then .error v.error else .ok v.msg
  else
    if !hasStatus then .error "Malformed response, missing :status"
    else if v.error ≠ "" then .error v.error
    else .ok v.msg

/-- `HTTP2Codec::parseHeaderList`: validate a decoded flat name/value list and
build the HTTP message, or return an error string (a stream error). -/
def parseHeaderList (list : List (String × String)) (isRequest : Bool) :
    Except String HTTPMessage :=
  match parseHeaderListLoop isRequest list { msg := {} } false false with
  | .ret e => .error e
  | .brk v hasStatus => parseHeaderListFinish isRequest v hasStatus
  | .fin v hasStatus => parseHeaderListFinish isRequest v hasStatus

/-- Convert a byte list to a string (header-block decoding). -/
def bytesToString (b : List Nat) : String :=
  String.mk (b.map (fun n => Char.ofNat (n % 256)))

/-- Convert a string to its byte list. -/
def stringToBytes (s : String) : List Nat := s.data.map Char.toNat

/-- Modelled from the spec: the compression engine contract (§6) is an opaque
deterministic `decode(bytes) → list-of-(name, value) | error`; the HPACK
algorithm itself is out of scope.  We model a simple length-prefixed coding:
`[nameLen, name…, valueLen, value…]*`; malformed input is a decode error. -/
def hpackDecodeLoop : Nat → List Nat → Option (List (String × String))
  | _, [] => some []
  | 0, _ :: _ => none
  | fuel + 1, ln :: rest =>
    if rest.length < ln then none
    else
      let name := bytesToString (rest.take ln)
      match rest.drop ln with
      | [] => none
      | lv :: rest2 =>
        if rest2.length < lv then none
        else
          (hpackDecodeLoop fuel (rest2.drop lv)).map
            (fun l => (name, bytesToString (rest2.take lv)) :: l)

/-- Opaque decode entry point (see `hpackDecodeLoop`). -/
def hpackDecode (b : List Nat) : Option (List (String × String)) :=
  hpackDecodeLoop b.length b

/-- Modelled from the spec: the compression engine's opaque `encode`, the
inverse of `hpackDecode`'s coding. -/
def hpackEncode (l : List (String × String)) : List Nat :=
  l.flatMap (fun p =>
    (stringToBytes p.1).length % 256 :: stringToBytes p.1 ++
      ((stringToBytes p.2).length % 256 :: stringToBytes p.2))

/-- The mutable state of one `HTTP2Codec` instance (§3 data model):
`transportDirection_`, the preface/header phase flags, `curHeader_`,
`expectedContinuationStream_`, `lastStreamID_`, `sessionClosing_`,
`ingressGoawayAck_`, the two settings stores, the encoder table size control
and the accumulated header-block buffer `curHeaderBlock_`. -/
structure CodecState where
  direction : TransportDirection
  needConnectionPreface : Bool
  needHeader : Bool
  curHeader : FrameHeader
  expectedContinuation : Nat
  lastStreamID : Nat
  sessionClosing : ClosingState
  ingressGoawayAck : Nat
  ingressSettings : List (Nat × Nat)
  egressSettings : List (Nat × Nat)
  encoderTableSize : Nat
  curHeaderBlock : List Nat
deriving DecidableEq, Repr

/-- Freshly constructed codec (`HTTP2Codec::HTTP2Codec`): only the server side
expects the connection preface; `ingressGoawayAck_` starts at the unset
sentinel `UINT32_MAX`. -/
def initialCodecState (dir : TransportDirection) : CodecState :=
  { direction := dir
    needConnectionPreface := dir = TransportDirection.DOWNSTREAM
    needHeader := true
    curHeader := { length := 0, ftype := 0, flags := 0, stream := 0 }
    expectedContinuation := 0
    lastStreamID := 0
    sessionClosing := ClosingState.OPEN
    ingressGoawayAck := kUInt32Max
    ingressSettings := []
    egressSettings := []
    encoderTableSize := 4096
    curHeaderBlock := [] }

/-- Result of one codec-level parse step: the updated codec state, the
callback invocations emitted during the step, and the connection error code
returned to the ingress loop. -/
structure ParseResult where
  state : CodecState
  events : List Event
  err : ErrorCode
deriving DecidableEq, Repr

/-- Priority payload fields (`http2::PriorityUpdate`); parsed and discarded by
this codec version. -/
structure PriorityUpdate where
  streamDependency : Nat
  exclusive : Bool
  weight : Nat
deriving DecidableEq, Repr

/-- Modelled from the spec: `http2::parseData` — strip the optional pad-length
byte and trailing padding from a DATA payload; a pad length that does not fit
the payload is a connection error. -/
def parseDataFramer (hdr : FrameHeader) (payload : List Nat) :
    Except ErrorCode (List Nat) :=
  if testFlag hdr.flags kFlagPadded then
    match payload with
    | [] => .error ErrorCode.FRAME_SIZE_ERROR
    | padLen :: body =>
      if body.length < padLen then .error ErrorCode.PROTOCOL_ERROR
      else .ok (body.take (body.length - padLen))
  else .ok payload

/-- Modelled from the spec: `http2::parseHeaders` — strip optional padding,
then the optional 5-byte priority section, leaving the header-block
fragment. -/
def parseHeadersFramer (hdr : FrameHeader) (payload : List Nat) :
    Except ErrorCode (Option PriorityUpdate × List Nat) :=
  let depad : Except ErrorCode (List Nat) :=
    if testFlag hdr.flags kFlagPadded then
      match payload with
      | [] => .error ErrorCode.FRAME_SIZE_ERROR
      | padLen :: body =>
        if body.length < padLen then .error ErrorCode.PROTOCOL_ERROR
        else .ok (body.take (body.length - padLen))
    else .ok payload
  match depad with
  | .error e => .error e
  | .ok body =>
    if testFlag hdr.flags kFlagPriority then
      if body.length < 5 then .error ErrorCode.FRAME_SIZE_ERROR
      else
        .ok (some { streamDependency := read31 body
                    exclusive := testFlag (body.getD 0 0) 128
                    weight := body.getD 4 0 }, body.drop 5)
    else .ok (none, body)

/-- Modelled from the spec: `http2::parsePushPromise` — strip optional
padding, read the 4-byte promised stream id, leave the fragment. -/
def parsePushPromiseFramer (hdr : FrameHeader) (payload : List Nat) :
    Except ErrorCode (Nat × List Nat) :=
  let depad : Except ErrorCode (List Nat) :=
    if testFlag hdr.flags kFlagPadded then
      match payload with
      | [] => .error ErrorCode.FRAME_SIZE_ERROR
      | padLen :: body =>
        if body.length < padLen then .error ErrorCode.PROTOCOL_ERROR
        else .ok (body.take (body.length - padLen))
    else .ok payload
  match depad with
  | .error e => .error e
  | .ok body =>
    if body.length < 4 then .error ErrorCode.FRAME_SIZE_ERROR
    else .ok (read31 body, body.drop 4)

/-- Modelled from the spec: `http2::parseSettings` rejects payloads that are
not a whole number of 6-byte pairs; split into (16-bit id, 32-bit value)
pairs. -/
def settingsPairs : Nat → List Nat → List (Nat × Nat)
  | 0, _ => []
  | _, [] => []
  | fuel + 1, l =>
    (beVal (l.take 2), beVal ((l.drop 2).take 4)) :: settingsPairs fuel (l.drop 6)

/-- `maxRecvFrameSize()`: modelled from the spec (§4.1) — the
locally-advertised MAX_FRAME_SIZE setting, default 16,384. -/
def maxRecvFrameSize (s : CodecState) : Nat :=
  (getSettingVal s.egressSettings kSettingMaxFrameSize).getD kMaxFramePayloadLengthMin

/-- `HTTP2Codec::checkNewStream`: validate a new ingress stream id.  Note the
source accepts `streamId = lastStreamID_`, writes `curHeader_.stream` (not the
validated id) into `lastStreamID_`, and does so before the parity test. -/
def checkNewStream (s : CodecState) (streamId : Nat) : CodecState × ErrorCode :=
  if streamId = 0 ∨ streamId < s.lastStreamID then (s, ErrorCode.PROTOCOL_ERROR)
  else
    let odd := streamId % 2 = 1
    let push := s.direction = TransportDirection.UPSTREAM
    let s' := { s with lastStreamID := s.curHeader.stream }
    if (odd ∧ push) ∨ (¬odd ∧ ¬push) then (s', ErrorCode.PROTOCOL_ERROR)
    else (s', ErrorCode.NO_ERROR)

/-- `HTTP2Codec::handleEndStream`: emit `onMessageComplete` when END_STREAM is
set. -/
def handleEndStream (s : CodecState) : List Event :=
  if testFlag s.curHeader.flags kFlagEndStream then
    [Event.onMessageComplete s.curHeader.stream false]
  else []

/-- `HTTP2Codec::parseData`: deliver the payload via `onBody`, then honor
END_STREAM. -/
def parseData (s : CodecState) (payload : List Nat) : ParseResult :=
  match parseDataFramer s.curHeader payload with
  | .error e => { state := s, events := [], err := e }
  | .ok outData =>
    { state := s
      events := Event.onBody s.curHeader.stream outData :: handleEndStream s
      err := ErrorCode.NO_ERROR }

/-- `HTTP2Codec::parseHeadersImpl`: append the fragment to the accumulated
header block; on END_HEADERS decode and validate it (decode failure is a
COMPRESSION_ERROR connection error, validation failure a stream error
reported via `onError(stream, 400, newTxn=true)`); then report
`onMessageBegin`/`onPushMessageBegin`, `onHeadersComplete`, and END_STREAM.
The source's else-branch re-append of the already-moved `headerBuf` is a
no-op (appending a moved-from buffer), so the fragment is appended once. -/
def parseHeadersImpl (s : CodecState) (headerBuf : List Nat)
    (_priority : Option PriorityUpdate) (promisedStream : Option Nat) :
    ParseResult :=
  let s1 := { s with curHeaderBlock := s.curHeaderBlock ++ headerBuf }
  let emit : CodecState → Option HTTPMessage → ParseResult := fun s' msg =>
    let evs1 :=
      if s.curHeader.ftype = kFrameHeaders then
        [Event.onMessageBegin s.curHeader.stream msg]
      else if s.curHeader.ftype = kFramePushPromise then
        [Event.onPushMessageBegin (promisedStream.getD 0) s.curHeader.stream msg]
      else []
    let evs2 :=
      match msg with
      | some m =>
        if testFlag s.curHeader.flags kFlagEndHeaders then
          [Event.onHeadersComplete s.curHeader.stream m]
        else []
      | none => []
    { state := s', events := evs1 ++ evs2 ++ handleEndStream s
      err := ErrorCode.NO_ERROR }
  if testFlag s.curHeader.flags kFlagEndHeaders then
    match hpackDecode s1.curHeaderBlock with
    | none =>
      { state := { s1 with curHeaderBlock := [] }, events := []
        err := ErrorCode.COMPRESSION_ERROR }
    | some list =>
      let s2 := { s1 with curHeaderBlock := [] }
      let isRequest :=
        s.direction = TransportDirection.DOWNSTREAM ∨ promisedStream.isSome
      match parseHeaderList list isRequest with
      | .error _ =>
        { state := s2
          events := [Event.onError s.curHeader.stream none (some 400) true]
          err := ErrorCode.NO_ERROR }
      | .ok msg => emit s2 (some msg)
  else emit s1 none

/-- The stream-validation step of `HTTP2Codec::parseHeaders`: downstream runs
`checkNewStream` on the frame's stream id; upstream requires an odd (reply)
stream id. -/
def parseHeadersCheck (s : CodecState) : CodecState × Option ErrorCode :=
  if s.direction = TransportDirection.DOWNSTREAM then
    let (s', e) := checkNewStream s s.curHeader.stream
    (s', if e = ErrorCode.NO_ERROR then none else some e)
  else if s.curHeader.stream % 2 = 0 then (s, some ErrorCode.PROTOCOL_ERROR)
  else (s, none)

/-- `HTTP2Codec::parseHeaders`: parse the framer payload; validate the new
stream (downstream) or require an odd reply stream id (upstream); drop the
frame without callbacks when the session is CLOSED; otherwise hand off to
`parseHeadersImpl`. -/
def parseHeaders (s : CodecState) (payload : List Nat) : ParseResult :=
  match parseHeadersFramer s.curHeader payload with
  | .error e => { state := s, events := [], err := e }
  | .ok (priority, headerBuf) =>
    match parseHeadersCheck s with
    | (s', some e) => { state := s', events := [], err := e }
    | (s', none) =>
      if s'.sessionClosing = ClosingState.CLOSED then
        { state := s', events := [], err := ErrorCode.NO_ERROR }
      else parseHeadersImpl s' headerBuf priority none

/-- `HTTP2Codec::parseContinuation`: the payload is entirely a header-block
fragment. -/
def parseContinuation (s : CodecState) (payload : List Nat) : ParseResult :=
  parseHeadersImpl s payload none none

/-- `HTTP2Codec::parsePriority`: parsed (5-byte payload) and discarded; no
callback in this codec version.  The length check is modelled from the spec
(`http2::parsePriority`). -/
def parsePriority (s : CodecState) (payload : List Nat) : ParseResult :=
  if payload.length ≠ 5 then
    { state := s, events := [], err := ErrorCode.FRAME_SIZE_ERROR }
  else { state := s, events := [], err := ErrorCode.NO_ERROR }

/-- `HTTP2Codec::parseRstStream`: read the status code, emit `onAbort`.  The
4-byte length check is modelled from the spec (`http2::parseRstStream`). -/
def parseRstStream (s : CodecState) (payload : List Nat) : ParseResult :=
  if payload.length ≠ 4 then
    { state := s, events := [], err := ErrorCode.FRAME_SIZE_ERROR }
  else
    { state := s, events := [Event.onAbort s.curHeader.stream (read32 payload)]
      err := ErrorCode.NO_ERROR }

/-- The per-pair loop of `HTTP2Codec::parseSettings`: validate each pair
(HEADER_TABLE_SIZE also drives the encoder table size control), commit it to
`ingressSettings_`, and collect the committed entry for the callback.  An
invalid pair returns PROTOCOL_ERROR immediately, keeping earlier commits. -/
def applySettingsLoop :
    CodecState → List (Nat × Nat) → List (Nat × Nat) →
      CodecState × List (Nat × Nat) × ErrorCode
  | s, [], acc => (s, acc, ErrorCode.NO_ERROR)
  | s, (id, v) :: rest, acc =>
    let commit : CodecState → CodecState × List (Nat × Nat) × ErrorCode :=
      fun s' =>
        applySettingsLoop
          { s' with ingressSettings := setSetting s'.ingressSettings id v }
          rest (acc ++ [(id, v)])
    if id = kSettingHeaderTableSize then
      commit { s with encoderTableSize := v }
    else if id = kSettingEnablePush then
      if v ≠ 0 ∧ v ≠ 1 then (s, acc, ErrorCode.PROTOCOL_ERROR) else commit s
    else if id = kSettingInitialWindowSize then
      if kMaxWindowUpdateSize < v then (s, acc, ErrorCode.PROTOCOL_ERROR)
      else commit s
    else if id = kSettingMaxFrameSize then
      if v < kMaxFramePayloadLengthMin ∨ kMaxFramePayloadLength < v then
        (s, acc, ErrorCode.PROTOCOL_ERROR)
      else commit s
    else commit s

/-- The codec-level SETTINGS handling after the framer has split the payload
into pairs: an ACK emits `onSettingsAck`; otherwise the pairs are validated
and committed, then reported in a single `onSettings` callback. -/
def parseSettingsPairs (s : CodecState) (pairs : List (Nat × Nat)) :
    ParseResult :=
  if testFlag s.curHeader.flags kFlagAck then
    { state := s, events := [Event.onSettingsAck], err := ErrorCode.NO_ERROR }
  else
    let (s', acc, e) := applySettingsLoop s pairs []
    if e = ErrorCode.NO_ERROR then
      { state := s', events := [Event.onSettings acc], err := ErrorCode.NO_ERROR }
    else { state := s', events := [], err := e }

/-- `HTTP2Codec::parseSettings`: the framer rejects an ACK with a nonzero
payload and payloads that are not a multiple of 6 bytes (modelled from the
spec), then the pairs are processed by `parseSettingsPairs`. -/
def parseSettings (s : CodecState) (payload : List Nat) : ParseResult :=
  if testFlag s.curHeader.flags kFlagAck ∧ payload.length ≠ 0 then
    { state := s, events := [], err := ErrorCode.FRAME_SIZE_ERROR }
  else if payload.length % 6 ≠ 0 then
    { state := s, events := [], err := ErrorCode.FRAME_SIZE_ERROR }
  else parseSettingsPairs s (settingsPairs payload.length payload)

/-- `HTTP2Codec::parsePushPromise`: PUSH_PROMISE is a PROTOCOL_ERROR on a
downstream codec or when push is disabled in the egress settings; otherwise
the promised stream id is validated as a new stream, the frame is dropped
after the final GOAWAY, and the fragment goes to `parseHeadersImpl`. -/
def parsePushPromise (s : CodecState) (payload : List Nat) : ParseResult :=
  if s.direction ≠ TransportDirection.UPSTREAM then
    { state := s, events := [], err := ErrorCode.PROTOCOL_ERROR }
  else if getSettingVal s.egressSettings kSettingEnablePush ≠ some 1 then
    { state := s, events := [], err := ErrorCode.PROTOCOL_ERROR }
  else
    match parsePushPromiseFramer s.curHeader payload with
    | .error e => { state := s, events := [], err := e }
    | .ok (promisedStream, fragment) =>
      let (s', e) := checkNewStream s promisedStream
      if e ≠ ErrorCode.NO_ERROR then { state := s', events := [], err := e }
      else if s'.sessionClosing = ClosingState.CLOSED then
        { state := s', events := [], err := ErrorCode.NO_ERROR }
      else parseHeadersImpl s' fragment none (some promisedStream)

/-- `HTTP2Codec::parsePing`: emit `onPingReply` for an ACK, `onPingRequest`
otherwise.  The 8-byte length check is modelled from the spec
(`http2::parsePing`). -/
def parsePing (s : CodecState) (payload : List Nat) : ParseResult :=
  if payload.length ≠ 8 then
    { state := s, events := [], err := ErrorCode.FRAME_SIZE_ERROR }
  else
    let data := beVal payload
    { state := s
      events :=
        if testFlag s.curHeader.flags kFlagAck then [Event.onPingReply data]
        else [Event.onPingRequest data]
      err := ErrorCode.NO_ERROR }

/-- `HTTP2Codec::parseGoaway`: a last-good-stream value smaller than
`ingressGoawayAck_` updates it and emits `onGoaway`; any other value is
logged and otherwise ignored.  The minimum 8-byte payload is modelled from
the spec (`http2::parseGoaway`). -/
def parseGoaway (s : CodecState) (payload : List Nat) : ParseResult :=
  if payload.length < 8 then
    { state := s, events := [], err := ErrorCode.FRAME_SIZE_ERROR }
  else
    let lastGoodStream := read31 payload
    let statusCode := read32 (payload.drop 4)
    if lastGoodStream < s.ingressGoawayAck then
      { state := { s with ingressGoawayAck := lastGoodStream }
        events := [Event.onGoaway lastGoodStream statusCode]
        err := ErrorCode.NO_ERROR }
    else { state := s, events := [], err := ErrorCode.NO_ERROR }

/-- `HTTP2Codec::parseWindowUpdate`: a zero delta on stream 0 is a
PROTOCOL_ERROR, a zero delta elsewhere is silently dropped; otherwise emit
`onWindowUpdate`.  The 4-byte length is modelled from the spec
(`http2::parseWindowUpdate`). -/
def parseWindowUpdate (s : CodecState) (payload : List Nat) : ParseResult :=
  if payload.length ≠ 4 then
    { state := s, events := [], err := ErrorCode.FRAME_SIZE_ERROR }
  else
    let delta := read31 payload
    if delta = 0 then
      if s.curHeader.stream = 0 then
        { state := s, events := [], err := ErrorCode.PROTOCOL_ERROR }
      else { state := s, events := [], err := ErrorCode.NO_ERROR }
    else
      { state := s
        events := [Event.onWindowUpdate s.curHeader.stream delta]
        err := ErrorCode.NO_ERROR }

/-- Modelled from the spec: `http2::frameAffectsCompression` — the
header-bearing frame types HEADERS, PUSH_PROMISE and CONTINUATION. -/
def frameAffectsCompression (t : Nat) : Bool :=
  t = kFrameHeaders ∨ t = kFramePushPromise ∨ t = kFrameContinuation

/-- The per-type dispatch switch of `HTTP2Codec::parseFrame`; unknown and
ALTSVC frames are skipped. -/
def dispatchFrame (s : CodecState) (payload : List Nat) : ParseResult :=
  if s.curHeader.ftype = kFrameData then parseData s payload
  else if s.curHeader.ftype = kFrameHeaders then parseHeaders s payload
  else if s.curHeader.ftype = kFramePriority then parsePriority s payload
  else if s.curHeader.ftype = kFrameRstStream then parseRstStream s payload
  else if s.curHeader.ftype = kFrameSettings then parseSettings s payload
  else if s.curHeader.ftype = kFramePushPromise then parsePushPromise s payload
  else if s.curHeader.ftype = kFramePing then parsePing s payload
  else if s.curHeader.ftype = kFrameGoaway then parseGoaway s payload
  else if s.curHeader.ftype = kFrameWindowUpdate then parseWindowUpdate s payload
  else if s.curHeader.ftype = kFrameContinuation then parseContinuation s payload
  else { state := s, events := [], err := ErrorCode.NO_ERROR }

/-- `HTTP2Codec::parseFrame`: the continuation interlock is enforced before
dispatch, and after dispatch `expectedContinuationStream_` is recomputed from
the frame type and END_HEADERS flag.  `curHeader_` is not modified by any of
the per-type parsers, so reading it before or after dispatch is equivalent. -/
def parseFrame (s : CodecState) (payload : List Nat) : ParseResult :=
  if s.expectedContinuation ≠ 0 ∧
      (s.curHeader.ftype ≠ kFrameContinuation ∨
        s.expectedContinuation ≠ s.curHeader.stream) then
    { state := s, events := [], err := ErrorCode.PROTOCOL_ERROR }
  else if s.expectedContinuation = 0 ∧ s.curHeader.ftype = kFrameContinuation then
    { state := s, events := [], err := ErrorCode.PROTOCOL_ERROR }
  else
    let r := dispatchFrame s payload
    { r with
        state :=
          { r.state with
              expectedContinuation :=
                if frameAffectsCompression s.curHeader.ftype ∧
                    ¬testFlag s.curHeader.flags kFlagEndHeaders then
                  s.curHeader.stream
                else 0 } }

/-- Result of running the ingress loop: final state, bytes consumed, events
emitted, and the loop's connection error code. -/
structure IngressResult where
  state : CodecState
  consumed : Nat
  events : List Event
  connError : ErrorCode
deriving DecidableEq, Repr

/-- One iteration of the `HTTP2Codec::onIngress` loop: consume the connection
preface, a 9-byte common frame header (checked against
`maxRecvFrameSize()`), or a complete frame payload; `none` means not enough
bytes are available and the loop breaks. -/
def ingressStep (s : CodecState) (b : List Nat) : Option IngressResult :=
  if s.needConnectionPreface then
    if 24 ≤ b.length then
      if b.take 24 = prefaceBytes then
        some { state := { s with needConnectionPreface := false }
               consumed := 24, events := [], connError := ErrorCode.NO_ERROR }
      else
        some { state := { s with needConnectionPreface := false }
               consumed := 24, events := [], connError := ErrorCode.PROTOCOL_ERROR }
    else none
  else if s.needHeader then
    if 9 ≤ b.length then
      let hdr := parseFrameHeaderBytes (b.take 9)
      let s' := { s with needHeader := false, curHeader := hdr }
      if maxRecvFrameSize s < hdr.length then
        some { state := s', consumed := 9, events := []
               connError := ErrorCode.FRAME_SIZE_ERROR }
      else
        some { state := s', consumed := 9, events := []
               connError := ErrorCode.NO_ERROR }
    else none
  else
    if s.curHeader.length ≤ b.length then
      let r := parseFrame { s with needHeader := true } (b.take s.curHeader.length)
      some { state := r.state, consumed := s.curHeader.length
             events := r.events, connError := r.err }
    else none

/-- Sequential composition of two loop-iteration results: the second state
and error, summed consumption, concatenated events. -/
def seqResult (a b : IngressResult) : IngressResult :=
  { state := b.state, consumed := a.consumed + b.consumed
    events := a.events ++ b.events, connError := b.connError }

/-- The `HTTP2Codec::onIngress` loop, fuel-indexed: iterate `ingressStep`
while no connection error has occurred and progress is possible, summing the
consumed byte counts and concatenating the emitted events. -/
def ingressLoop : Nat → CodecState → List Nat → IngressResult
  | 0, s, _ => { state := s, consumed := 0, events := [], connError := ErrorCode.NO_ERROR }
  | fuel + 1, s, b =>
    match ingressStep s b with
    | none =>
      { state := s, consumed := 0, events := [], connError := ErrorCode.NO_ERROR }
    | some r =>
      if r.connError = ErrorCode.NO_ERROR then
        seqResult r (ingressLoop fuel r.state (b.drop r.consumed))
      else r

/-- Fuel sufficient for `ingressLoop` to reach its natural stopping point:
every iteration either consumes at least 9 bytes or (for a zero-length frame
payload) consumes none but flips `needHeader_` back on. -/
def fuelFor (s : CodecState) (b : List Nat) : Nat :=
  2 * b.length + (if s.needHeader then 2 else 3)

/-- The ingress loop run with sufficient fuel (the loop of
`HTTP2Codec::onIngress` before `checkConnectionError`). -/
def ingressRun (s : CodecState) (b : List Nat) : IngressResult :=
  ingressLoop (fuelFor s b) s b

/-- `HTTP2Codec::onIngress` followed by `checkConnectionError`: a connection
error is reported once via `onError(stream=0, codec error, newTxn=false)`. -/
def onIngress (s : CodecState) (b : List Nat) : CodecState × Nat × List Event :=
  let r := ingressRun s b
  (r.state, r.consumed,
    r.events ++
      (if r.connError = ErrorCode.NO_ERROR then []
       else [Event.onError 0 (some r.connError) none false]))

/-- The caller protocol for chunked delivery (§8): feed each chunk appended to
the unconsumed suffix of the previous call, accumulating consumed byte counts
and callback events. -/
def feedChunks : CodecState → List Nat → List (List Nat) →
    CodecState × Nat × List Event
  | s, _, [] => (s, 0, [])
  | s, leftover, c :: cs =>
    let buf := leftover ++ c
    let r := onIngress s buf
    let rest := feedChunks r.1 (buf.drop r.2.1) cs
    (rest.1, r.2.1 + rest.2.1, r.2.2 ++ rest.2.2)

/-- Numeric value of an error code on the wire. -/
def errCodeNat : ErrorCode → Nat
  | .NO_ERROR => 0
  | .PROTOCOL_ERROR => 1
  | .INTERNAL_ERROR => 2
  | .FLOW_CONTROL_ERROR => 3
  | .SETTINGS_TIMEOUT => 4
  | .STREAM_CLOSED => 5
  | .FRAME_SIZE_ERROR => 6
  | .REFUSED_STREAM => 7
  | .CANCEL => 8
  | .COMPRESSION_ERROR => 9
  | .CONNECT_ERROR => 10
  | .ENHANCE_YOUR_CALM => 11
  | .INADEQUATE_SECURITY => 12
  | .HTTP_1_1_REQUIRED => 13

/-- Modelled from the spec: `http2::writeGoaway` with no debug data — a
9-byte header plus 8 bytes of payload. -/
def writeGoaway (lastStream : Nat) (code : ErrorCode) : List Nat :=
  frameHeaderBytes 8 kFrameGoaway 0 0 ++ be32 lastStream ++ be32 (errCodeNat code)

/-- `HTTP2Codec::generateGoaway`: a CLOSED session emits nothing; an OPEN
session announcing a graceful drain (`lastStream = INT32_MAX`, NO_ERROR)
moves to FIRST_GOAWAY_SENT, any other OPEN call and any FIRST_GOAWAY_SENT
call moves to CLOSED; a frame is written in all non-CLOSED cases.  (The
debug-build egressGoawayAck_ CHECK is compiled out in release builds and not
modelled.) -/
def generateGoaway (s : CodecState) (lastStream : Nat) (code : ErrorCode) :
    CodecState × Nat :=
  if s.sessionClosing = ClosingState.CLOSED then (s, 0)
  else
    let closing' :=
      match s.sessionClosing with
      | ClosingState.OPEN =>
        if lastStream = kInt32Max ∧ code = ErrorCode.NO_ERROR then
          ClosingState.FIRST_GOAWAY_SENT
        else ClosingState.CLOSED
      | ClosingState.FIRST_GOAWAY_SENT => ClosingState.CLOSED
      | ClosingState.CLOSED => ClosingState.CLOSED
    ({ s with sessionClosing := closing' }, (writeGoaway lastStream code).length)

/-- Modelled from the spec: `http2::writePing` — a 9-byte header plus the
8-byte opaque payload. -/
def writePing (data : Nat) (ack : Bool) : List Nat :=
  frameHeaderBytes 8 kFramePing (if ack then 1 else 0) 0 ++ be64 data

/-- `HTTP2Codec::generatePingRequest`: the opaque payload is drawn from
`folly::Random::rand64()`; the draw is made explicit as the argument. -/
def generatePingRequest (randDraw : Nat) : List Nat := writePing randDraw false

/-- `HTTP2Codec::generatePingReply`: echo the given opaque data with ACK. -/
def generatePingReply (uniqueID : Nat) : List Nat := writePing uniqueID true

/-- One egress frame produced by `generateHeader`'s fragmentation: its type,
stream, chunk size, and END_HEADERS flag. -/
structure EgressFrame where
  ftype : Nat
  stream : Nat
  chunkLen : Nat
  endHeaders : Bool
deriving DecidableEq, Repr

/-- The CONTINUATION loop of `HTTP2Codec::generateHeader`: repeatedly split
off up to `split` bytes, with END_HEADERS on the chunk that empties the
queue. -/
def contFragments (split stream : Nat) : Nat → List Nat → List EgressFrame
  | 0, _ => []
  | fuel + 1, buf =>
    let c := min split buf.length
    let rest := buf.drop c
    let eh := rest.isEmpty
    { ftype := kFrameContinuation, stream := stream, chunkLen := c, endHeaders := eh } ::
      (if eh then [] else contFragments split stream fuel rest)

/-- The header-block fragmentation of `HTTP2Codec::generateHeader` (after
HPACK encoding): the first chunk becomes HEADERS, or PUSH_PROMISE when an
associated stream is given, and the remainder becomes CONTINUATION frames.
`split` is the `kHeaderSplitSize` tunable (default
`http2::kMaxFramePayloadLength`). -/
def generateHeaderFrames (split stream assocStream : Nat) (buf : List Nat) :
    List EgressFrame :=
  if buf.isEmpty then []
  else
    let c := min split buf.length
    let rest := buf.drop c
    let eh := rest.isEmpty
    let first : EgressFrame :=
      if assocStream = 0 then
        { ftype := kFrameHeaders, stream := stream, chunkLen := c, endHeaders := eh }
      else
        { ftype := kFramePushPromise, stream := stream, chunkLen := c, endHeaders := eh }
    first :: (if eh then [] else contFragments split stream buf.length rest)

/-- `HTTP2Codec::generateHeader` composed with the opaque encoder: encode the
header list, then fragment it. -/
def generateHeader (split stream assocStream : Nat)
    (allHeaders : List (String × String)) : List EgressFrame :=
  generateHeaderFrames split stream assocStream (hpackEncode allHeaders)

/-- The validity predicate that `parseSettings` enforces on a single
(id, value) pair: ENABLE_PUSH must be 0 or 1, INITIAL_WINDOW_SIZE at most
`2^31 - 1`, MAX_FRAME_SIZE within the legal payload-length range. -/
def validSetting (p : Nat × Nat) : Prop :=
  (p.1 = kSettingEnablePush → p.2 = 0 ∨ p.2 = 1) ∧
    (p.1 = kSettingInitialWindowSize → p.2 ≤ kMaxWindowUpdateSize) ∧
    (p.1 = kSettingMaxFrameSize →
      kMaxFramePayloadLengthMin ≤ p.2 ∧ p.2 ≤ kMaxFramePayloadLength)

instance (p : Nat × Nat) : Decidable (validSetting p) := by
  unfold validSetting; infer_instance

/-- The value carried by the last pair with the given id, if any (what a
sequence of `setSetting` commits leaves in the store). -/
def lastVal : List (Nat × Nat) → Nat → Option Nat
  | [], _ => none
  | p :: t, j =>
    match lastVal t j with
    | some v => some v
    | none => if p.1 = j then some p.2 else none

/-- Whether a header-list validation result is an error (stream error). -/
def isHeaderError (r : Except String HTTPMessage) : Bool :=
  match r with
  | .error _ => true
  | .ok _ => false

/-- The GOAWAY wire image is always a 9-byte header plus 8 payload bytes. -/
theorem writeGoaway_length (lastStream : Nat) (code : ErrorCode) :
    (writeGoaway lastStream code).length = 17 := by
  simp [writeGoaway, frameHeaderBytes, be24, be32]

/-- C1: continuation interlock — a frame while a continuation is expected
must be a CONTINUATION on exactly that stream, a stray CONTINUATION is a
PROTOCOL_ERROR, and after dispatch `expectedContinuationStream_` is the
frame's stream id exactly for a header-bearing frame (HEADERS, PUSH_PROMISE,
CONTINUATION) without END_HEADERS, and zero otherwise. -/
theorem c1_continuation_interlock (s : CodecState) (payload : List Nat) :
    (s.expectedContinuation ≠ 0 →
      (s.curHeader.ftype ≠ kFrameContinuation ∨
        s.curHeader.stream ≠ s.expectedContinuation) →
      (parseFrame s payload).err = ErrorCode.PROTOCOL_ERROR) ∧
    (s.expectedContinuation = 0 → s.curHeader.ftype = kFrameContinuation →
      (parseFrame s payload).err = ErrorCode.PROTOCOL_ERROR) ∧
    ((s.expectedContinuation ≠ 0 →
        s.curHeader.ftype = kFrameContinuation ∧
          s.curHeader.stream = s.expectedContinuation) →
      (s.expectedContinuation = 0 → s.curHeader.ftype ≠ kFrameContinuation) →
      (parseFrame s payload).state.expectedContinuation =
        if (s.curHeader.ftype = kFrameHeaders ∨
              s.curHeader.ftype = kFramePushPromise ∨
              s.curHeader.ftype = kFrameContinuation) ∧
            s.curHeader.flags &&& kFlagEndHeaders = 0 then
          s.curHeader.stream
        else 0) := by
  refine ⟨?_, ?_, ?_⟩
  · intro he hm
    unfold parseFrame
    rw [if_pos ⟨he, hm.imp (fun h => h) Ne.symm⟩]
  · intro h0 hC
    unfold parseFrame
    rw [if_neg (by simp [h0]), if_pos ⟨h0, hC⟩]
  · intro h1 h2
    have hne1 : ¬(s.expectedContinuation ≠ 0 ∧
        (s.curHeader.ftype ≠ kFrameContinuation ∨
          s.expectedContinuation ≠ s.curHeader.stream)) := by
      rintro ⟨he, hd⟩
      obtain ⟨hc, hs⟩ := h1 he
      rcases hd with hd | hd
      · exact hd hc
      · exact hd hs.symm
    have hne2 : ¬(s.expectedContinuation = 0 ∧
        s.curHeader.ftype = kFrameContinuation) := by
      rintro ⟨he, hc⟩
      exact h2 he hc
    unfold parseFrame
    rw [if_neg hne1, if_neg hne2]
    by_cases hq : (s.curHeader.ftype = kFrameHeaders ∨
        s.curHeader.ftype = kFramePushPromise ∨
        s.curHeader.ftype = kFrameContinuation) ∧
        s.curHeader.flags &&& kFlagEndHeaders = 0
    · rw [if_pos hq]
      have hP : (frameAffectsCompression s.curHeader.ftype ∧
          ¬testFlag s.curHeader.flags kFlagEndHeaders) := by
        refine ⟨?_, ?_⟩
        · simp only [frameAffectsCompression, decide_eq_true_eq]
          tauto
        · simp [testFlag, hq.2]
      dsimp only
      exact if_pos hP
    · rw [if_neg hq]
      have hnc : ¬(frameAffectsCompression s.curHeader.ftype ∧
          ¬testFlag s.curHeader.flags kFlagEndHeaders) := by
        intro hfc
        apply hq
        refine ⟨?_, ?_⟩
        · have := hfc.1
          simpa [frameAffectsCompression] using this
        · have := hfc.2
          simpa [testFlag] using this
      dsimp only
      exact if_neg hnc

/-- C1 witness: in a state expecting a CONTINUATION on stream 5, a DATA frame
on stream 5 is a PROTOCOL_ERROR, and a HEADERS frame without END_HEADERS sets
the interlock to its stream. -/
theorem c1_continuation_interlock_witness :
    (parseFrame
        { (initialCodecState TransportDirection.DOWNSTREAM) with
            expectedContinuation := 5
            curHeader := { length := 0, ftype := 0, flags := 0, stream := 5 } }
        []).err = ErrorCode.PROTOCOL_ERROR ∧
    (parseFrame
        { (initialCodecState TransportDirection.UPSTREAM) with
            curHeader := { length := 0, ftype := 1, flags := 0, stream := 3 } }
        []).state.expectedContinuation =
      if (1 = kFrameHeaders ∨ 1 = kFramePushPromise ∨ 1 = kFrameContinuation) ∧
          0 &&& kFlagEndHeaders = 0 then 3 else 0 := by
  constructor
  · exact (c1_continuation_interlock
      { (initialCodecState TransportDirection.DOWNSTREAM) with
          expectedContinuation := 5
          curHeader := { length := 0, ftype := 0, flags := 0, stream := 5 } }
      []).1 (by decide) (by decide)
  · exact (c1_continuation_interlock
      { (initialCodecState TransportDirection.UPSTREAM) with
          curHeader := { length := 0, ftype := 1, flags := 0, stream := 3 } }
      []).2.2 (by decide) (by decide)

/-- C2 counterexample: the claim fails on the code three ways.  On a
downstream codec with `lastStreamID_ = 3`, stream id 3 (not strictly greater)
is accepted with NO_ERROR; on a downstream codec an even stream id 4 fails
the parity check yet `lastStreamID_` is still updated to 4; on an upstream
codec validating promised stream 4 while `curHeader_.stream = 3`,
`lastStreamID_` becomes 3, not the validated id 4. -/
theorem c2_new_stream_counterexample :
    (checkNewStream
        { (initialCodecState TransportDirection.DOWNSTREAM) with
            lastStreamID := 3
            curHeader := { length := 0, ftype := 1, flags := 4, stream := 3 } }
        3).2 = ErrorCode.NO_ERROR ∧
    ((checkNewStream
        { (initialCodecState TransportDirection.DOWNSTREAM) with
            lastStreamID := 1
            curHeader := { length := 0, ftype := 1, flags := 4, stream := 4 } }
        4).2 = ErrorCode.PROTOCOL_ERROR ∧
      (checkNewStream
        { (initialCodecState TransportDirection.DOWNSTREAM) with
            lastStreamID := 1
            curHeader := { length := 0, ftype := 1, flags := 4, stream := 4 } }
        4).1.lastStreamID = 4) ∧
    (checkNewStream
        { (initialCodecState TransportDirection.UPSTREAM) with
            lastStreamID := 0
            curHeader := { length := 0, ftype := 5, flags := 4, stream := 3 } }
        4).1.lastStreamID = 3 := by
  decide

/-- C2 (amended): `checkNewStream` returns PROTOCOL_ERROR exactly when the id
is zero, strictly below `lastStreamID_`, or of the wrong parity for the
peer's role; and `lastStreamID_` becomes `curHeader_.stream` whenever the
nonzero/ordering test passes — including when the parity test then fails. -/
theorem c2_new_stream_validation (s : CodecState) (id : Nat) :
    ((checkNewStream s id).2 = ErrorCode.PROTOCOL_ERROR ↔
      (id = 0 ∨ id < s.lastStreamID ∨
        (id % 2 = 1 ∧ s.direction = TransportDirection.UPSTREAM) ∨
        (id % 2 ≠ 1 ∧ s.direction = TransportDirection.DOWNSTREAM))) ∧
    ((checkNewStream s id).1.lastStreamID =
      if id = 0 ∨ id < s.lastStreamID then s.lastStreamID
      else s.curHeader.stream) ∧
    ((checkNewStream s id).2 ≠ ErrorCode.PROTOCOL_ERROR →
      (checkNewStream s id).2 = ErrorCode.NO_ERROR) := by
  unfold checkNewStream
  dsimp only
  by_cases h1 : id = 0 ∨ id < s.lastStreamID
  · rw [if_pos h1]
    refine ⟨?_, ?_, ?_⟩
    · constructor
      · intro _
        tauto
      · intro _
        rfl
    · rw [if_pos h1]
    · intro h
      exact absurd rfl h
  · rw [if_neg h1]
    by_cases h2 : (id % 2 = 1 ∧ s.direction = TransportDirection.UPSTREAM) ∨
        (¬id % 2 = 1 ∧ ¬s.direction = TransportDirection.UPSTREAM)
    · rw [if_pos h2]
      refine ⟨?_, ?_, ?_⟩
      · constructor
        · intro _
          rcases h2 with ⟨ho, hp⟩ | ⟨ho, hp⟩
          · exact Or.inr (Or.inr (Or.inl ⟨ho, hp⟩))
          · refine Or.inr (Or.inr (Or.inr ⟨ho, ?_⟩))
            cases hdir : s.direction
            · exact absurd hdir hp
            · rfl
        · intro _
          rfl
      · rw [if_neg h1]
      · intro h
        exact absurd rfl h
    · rw [if_neg h2]
      refine ⟨?_, ?_, ?_⟩
      · constructor
        · intro h
          exact absurd h (by simp)
        · rintro (h | h | ⟨ho, hp⟩ | ⟨ho, hp⟩)
          · exact absurd (Or.inl h) h1
          · exact absurd (Or.inr h) h1
          · exact absurd (Or.inl ⟨ho, hp⟩) h2
          · refine absurd (Or.inr ⟨ho, ?_⟩) h2
            intro hup
            rw [hup] at hp
            exact absurd hp (by simp)
      · rw [if_neg h1]
      · intro _
        rfl

/-- C4: the GOAWAY generation state machine — OPEN with
(`INT32_MAX`, NO_ERROR) announces a graceful drain and moves to
FIRST_GOAWAY_SENT emitting 17 bytes; any other OPEN call and any
FIRST_GOAWAY_SENT call moves to CLOSED emitting 17 bytes; a CLOSED call
emits nothing; and the two-step drain sequence ends with a third call
returning 0. -/
theorem c4_goaway_state_machine :
    (∀ s : CodecState, s.sessionClosing = ClosingState.OPEN →
      generateGoaway s kInt32Max ErrorCode.NO_ERROR =
        ({ s with sessionClosing := ClosingState.FIRST_GOAWAY_SENT }, 17)) ∧
    (∀ (s : CodecState) (l : Nat) (c : ErrorCode),
      s.sessionClosing = ClosingState.OPEN →
      (l ≠ kInt32Max ∨ c ≠ ErrorCode.NO_ERROR) →
      generateGoaway s l c = ({ s with sessionClosing := ClosingState.CLOSED }, 17)) ∧
    (∀ (s : CodecState) (l : Nat) (c : ErrorCode),
      s.sessionClosing = ClosingState.FIRST_GOAWAY_SENT →
      generateGoaway s l c = ({ s with sessionClosing := ClosingState.CLOSED }, 17)) ∧
    (∀ (s : CodecState) (l : Nat) (c : ErrorCode),
      s.sessionClosing = ClosingState.CLOSED → generateGoaway s l c = (s, 0)) ∧
    (∀ s : CodecState, s.sessionClosing = ClosingState.OPEN →
      (generateGoaway s kInt32Max ErrorCode.NO_ERROR).1.sessionClosing =
          ClosingState.FIRST_GOAWAY_SENT ∧
        (generateGoaway (generateGoaway s kInt32Max ErrorCode.NO_ERROR).1
            kInt32Max ErrorCode.NO_ERROR).1.sessionClosing = ClosingState.CLOSED ∧
        (generateGoaway (generateGoaway s kInt32Max ErrorCode.NO_ERROR).1
            kInt32Max ErrorCode.NO_ERROR).2 = 17 ∧
        (generateGoaway
            (generateGoaway (generateGoaway s kInt32Max ErrorCode.NO_ERROR).1
                kInt32Max ErrorCode.NO_ERROR).1
            kInt32Max ErrorCode.NO_ERROR).2 = 0) := by
  have hlen : ∀ (l : Nat) (c : ErrorCode), (writeGoaway l c).length = 17 :=
    writeGoaway_length
  have hopen : ∀ s : CodecState, s.sessionClosing = ClosingState.OPEN →
      generateGoaway s kInt32Max ErrorCode.NO_ERROR =
        ({ s with sessionClosing := ClosingState.FIRST_GOAWAY_SENT }, 17) := by
    intro s h
    unfold generateGoaway
    rw [if_neg (by simp [h]), h]
    simp [hlen]
  have hopen2 : ∀ (s : CodecState) (l : Nat) (c : ErrorCode),
      s.sessionClosing = ClosingState.OPEN →
      (l ≠ kInt32Max ∨ c ≠ ErrorCode.NO_ERROR) →
      generateGoaway s l c =
        ({ s with sessionClosing := ClosingState.CLOSED }, 17) := by
    intro s l c h hnc
    unfold generateGoaway
    rw [if_neg (by simp [h]), h]
    have : ¬(l = kInt32Max ∧ c = ErrorCode.NO_ERROR) := by tauto
    simp only [this, if_false]
    simp [hlen]
  have hfirst : ∀ (s : CodecState) (l : Nat) (c : ErrorCode),
      s.sessionClosing = ClosingState.FIRST_GOAWAY_SENT →
      generateGoaway s l c =
        ({ s with sessionClosing := ClosingState.CLOSED }, 17) := by
    intro s l c h
    unfold generateGoaway
    rw [if_neg (by simp [h]), h]
    simp [hlen]
  have hclosed : ∀ (s : CodecState) (l : Nat) (c : ErrorCode),
      s.sessionClosing = ClosingState.CLOSED → generateGoaway s l c = (s, 0) := by
    intro s l c h
    unfold generateGoaway
    rw [if_pos h]
  refine ⟨hopen, hopen2, hfirst, hclosed, ?_⟩
  intro s h
  rw [hopen s h]
  dsimp only
  rw [hfirst { s with sessionClosing := ClosingState.FIRST_GOAWAY_SENT }
      kInt32Max ErrorCode.NO_ERROR rfl]
  dsimp only
  rw [hclosed { s with sessionClosing := ClosingState.CLOSED }
      kInt32Max ErrorCode.NO_ERROR rfl]
  exact ⟨rfl, rfl, rfl, rfl⟩

/-- C4 witness: the three-call drain sequence from a fresh downstream codec. -/
theorem c4_goaway_state_machine_witness :
    generateGoaway (initialCodecState TransportDirection.DOWNSTREAM)
        kInt32Max ErrorCode.NO_ERROR =
      ({ initialCodecState TransportDirection.DOWNSTREAM with
          sessionClosing := ClosingState.FIRST_GOAWAY_SENT }, 17) ∧
    generateGoaway
        { initialCodecState TransportDirection.DOWNSTREAM with
            sessionClosing := ClosingState.OPEN } 5 ErrorCode.PROTOCOL_ERROR =
      ({ initialCodecState TransportDirection.DOWNSTREAM with
          sessionClosing := ClosingState.CLOSED }, 17) ∧
    generateGoaway
        { initialCodecState TransportDirection.DOWNSTREAM with
            sessionClosing := ClosingState.CLOSED } kInt32Max ErrorCode.NO_ERROR =
      ({ initialCodecState TransportDirection.DOWNSTREAM with
          sessionClosing := ClosingState.CLOSED }, 0) := by
  refine ⟨?_, ?_, ?_⟩
  · exact c4_goaway_state_machine.1 _ rfl
  · exact c4_goaway_state_machine.2.1 _ 5 ErrorCode.PROTOCOL_ERROR rfl
      (Or.inl (by decide))
  · exact c4_goaway_state_machine.2.2.2.1 _ kInt32Max ErrorCode.NO_ERROR rfl

/-- C9 counterexample: `generatePingRequest` writes the random draw into the
frame, so two invocations on identical codec state with identical arguments
(differing only in the hidden `folly::Random::rand64()` draw) produce
different bytes — the output is not a function of state and arguments. -/
theorem c9_ping_request_counterexample :
    generatePingRequest 0 ≠ generatePingRequest 1 := by
  decide

/-- C9 (amended): every modelled `generate_*` operation is a pure function of
the codec state and its arguments except `generatePingRequest`, whose 8-byte
opaque payload is the random draw; only its byte count (17) is independent of
the draw. -/
theorem c9_ping_request_length (r₁ r₂ : Nat) :
    (generatePingRequest r₁).length = (generatePingRequest r₂).length ∧
      (generatePingRequest r₁).length = 17 := by
  constructor <;>
    simp [generatePingRequest, writePing, frameHeaderBytes, be24, be32, be64]

/-- C10: after the final GOAWAY (`sessionClosing_ = CLOSED`), an ingress
HEADERS frame that passes new-stream validation emits no callback, yet
`lastStreamID_` is updated by the validation and, when END_HEADERS is clear,
the continuation interlock still engages for the dropped stream. -/
theorem c10_closed_headers_drop (s : CodecState) (payload : List Nat)
    (hdir : s.direction = TransportDirection.DOWNSTREAM)
    (hclosed : s.sessionClosing = ClosingState.CLOSED)
    (htype : s.curHeader.ftype = kFrameHeaders)
    (hexp : s.expectedContinuation = 0)
    (hpad : s.curHeader.flags &&& kFlagPadded = 0)
    (hpri : s.curHeader.flags &&& kFlagPriority = 0)
    (hnz : s.curHeader.stream ≠ 0)
    (hge : ¬s.curHeader.stream < s.lastStreamID)
    (hodd : s.curHeader.stream % 2 = 1) :
    parseFrame s payload =
      { state :=
          { s with
              lastStreamID := s.curHeader.stream
              expectedContinuation :=
                if s.curHeader.flags &&& kFlagEndHeaders = 0 then
                  s.curHeader.stream
                else 0 }
        events := []
        err := ErrorCode.NO_ERROR } := by
  have hstep : dispatchFrame s payload =
      { state := { s with lastStreamID := s.curHeader.stream }
        events := []
        err := ErrorCode.NO_ERROR } := by
    unfold dispatchFrame
    rw [htype]
    simp only [kFrameData, kFrameHeaders, kFramePriority, kFrameRstStream,
      kFrameSettings, kFramePushPromise, kFramePing, kFrameGoaway,
      kFrameWindowUpdate, kFrameContinuation]
    norm_num
    unfold parseHeaders
    have hpad8 : s.curHeader.flags &&& 8 = 0 := hpad
    have hpri32 : s.curHeader.flags &&& 32 = 0 := hpri
    have hframer : parseHeadersFramer s.curHeader payload =
        .ok (none, payload) := by
      unfold parseHeadersFramer
      simp [testFlag, kFlagPadded, kFlagPriority, hpad8, hpri32]
    rw [hframer]
    have hcheck : checkNewStream s s.curHeader.stream =
        ({ s with lastStreamID := s.curHeader.stream }, ErrorCode.NO_ERROR) := by
      unfold checkNewStream
      rw [if_neg (by tauto)]
      have hpush : ¬s.direction = TransportDirection.UPSTREAM := by
        rw [hdir]; simp
      rw [if_neg (by simp [hodd, hpush])]
    have hcheckStep : parseHeadersCheck s =
        ({ s with lastStreamID := s.curHeader.stream }, none) := by
      unfold parseHeadersCheck
      rw [if_pos hdir, hcheck]
      dsimp only
      rw [if_pos rfl]
    rw [hcheckStep]
    dsimp only
    rw [if_pos hclosed]
  unfold parseFrame
  rw [if_neg (by simp [hexp]), if_neg (by simp [htype, kFrameHeaders, kFrameContinuation])]
  rw [hstep]
  have hfc : frameAffectsCompression s.curHeader.ftype = true := by
    simp [frameAffectsCompression, htype]
  by_cases hq : s.curHeader.flags &&& kFlagEndHeaders = 0
  · have hP : (frameAffectsCompression s.curHeader.ftype ∧
        ¬testFlag s.curHeader.flags kFlagEndHeaders) := by
      refine ⟨by simp [hfc], by simp [testFlag, hq]⟩
    dsimp only
    rw [if_pos hP, if_pos hq]
  · have hnc : ¬(frameAffectsCompression s.curHeader.ftype ∧
        ¬testFlag s.curHeader.flags kFlagEndHeaders) := by
      rintro ⟨-, ht⟩
      exact ht (by simpa [testFlag] using hq)
    dsimp only
    rw [if_neg hnc, if_neg hq]

/-- C6: ingress GOAWAY monotonicity — `ingressGoawayAck_` never increases,
also across any sequence of received GOAWAYs; a GOAWAY whose last-good-stream
value is not smaller leaves the state unchanged and emits no callback, while
a strictly smaller value updates the ack and emits `onGoaway`. -/
theorem c6_goaway_monotone :
    (∀ (s : CodecState) (p : List Nat),
      (parseGoaway s p).state.ingressGoawayAck ≤ s.ingressGoawayAck) ∧
    (∀ (s : CodecState) (ps : List (List Nat)),
      (ps.foldl (fun st p => (parseGoaway st p).state) s).ingressGoawayAck ≤
        s.ingressGoawayAck) ∧
    (∀ (s : CodecState) (p : List Nat), 8 ≤ p.length →
      s.ingressGoawayAck ≤ read31 p →
      parseGoaway s p = { state := s, events := [], err := ErrorCode.NO_ERROR }) ∧
    (∀ (s : CodecState) (p : List Nat), 8 ≤ p.length →
      read31 p < s.ingressGoawayAck →
      parseGoaway s p =
        { state := { s with ingressGoawayAck := read31 p }
          events := [Event.onGoaway (read31 p) (read32 (p.drop 4))]
          err := ErrorCode.NO_ERROR }) := by
  have h1 : ∀ (s : CodecState) (p : List Nat),
      (parseGoaway s p).state.ingressGoawayAck ≤ s.ingressGoawayAck := by
    intro s p
    unfold parseGoaway
    dsimp only
    split_ifs with hlen hlt
    · exact Nat.le_refl _
    · exact Nat.le_of_lt hlt
    · exact Nat.le_refl _
  refine ⟨h1, ?_, ?_, ?_⟩
  · intro s ps
    induction ps generalizing s with
    | nil => exact Nat.le_refl _
    | cons p t ih => exact Nat.le_trans (ih _) (h1 s p)
  · intro s p hlen hge
    unfold parseGoaway
    rw [if_neg (by omega), if_neg (by omega)]
  · intro s p hlen hlt
    unfold parseGoaway
    rw [if_neg (by omega), if_pos hlt]

/-- C6 witness: with `ingressGoawayAck_ = 7`, a GOAWAY carrying last-good 3
updates the ack and reports it, and a subsequent GOAWAY carrying 5 is
ignored. -/
theorem c6_goaway_monotone_witness :
    parseGoaway
        { (initialCodecState TransportDirection.UPSTREAM) with
            ingressGoawayAck := 7 }
        [0, 0, 0, 3, 0, 0, 0, 1] =
      { state :=
          { (initialCodecState TransportDirection.UPSTREAM) with
              ingressGoawayAck := read31 [0, 0, 0, 3, 0, 0, 0, 1] }
        events :=
          [Event.onGoaway (read31 [0, 0, 0, 3, 0, 0, 0, 1])
            (read32 ([0, 0, 0, 3, 0, 0, 0, 1].drop 4))]
        err := ErrorCode.NO_ERROR } ∧
    parseGoaway
        { (initialCodecState TransportDirection.UPSTREAM) with
            ingressGoawayAck := 3 }
        [0, 0, 0, 5, 0, 0, 0, 0] =
      { state :=
          { (initialCodecState TransportDirection.UPSTREAM) with
              ingressGoawayAck := 3 }
        events := []
        err := ErrorCode.NO_ERROR } :=
  ⟨c6_goaway_monotone.2.2.2 _ _ (by decide) (by decide),
    c6_goaway_monotone.2.2.1 _ _ (by decide) (by decide)⟩

/-- Updating the settings store changes exactly the updated key. -/
theorem getSettingVal_setSetting (m : List (Nat × Nat)) (id v j : Nat) :
    getSettingVal (setSetting m id v) j =
      if j = id then some v else getSettingVal m j := by
  induction m with
  | nil =>
    by_cases h : j = id
    · subst h
      simp [setSetting, getSettingVal, List.find?]
    · have hbeq : (id == j) = false := by
        simp only [beq_eq_false_iff_ne, ne_eq]
        exact fun hc => h hc.symm
      simp [setSetting, getSettingVal, List.find?, hbeq, h]
  | cons p t ih =>
    by_cases hp : p.1 = id
    · rw [setSetting, if_pos hp]
      by_cases h : j = id
      · subst h
        simp [getSettingVal, List.find?]
      · have hbeq : (id == j) = false := by
          simp only [beq_eq_false_iff_ne, ne_eq]
          exact fun hc => h hc.symm
        have hbeq2 : (p.1 == j) = false := by
          simp only [beq_eq_false_iff_ne, ne_eq]
          exact fun hc => h (hc.symm.trans hp)
        simp [getSettingVal, List.find?, hbeq, hbeq2, h]
    · rw [setSetting, if_neg hp]
      by_cases hj : p.1 = j
      · have hnid : ¬j = id := fun hc => hp (hj.trans hc)
        have hbeq : (p.1 == j) = true := by simp [hj]
        simp [getSettingVal, List.find?, hbeq, hnid]
      · have hbeq : (p.1 == j) = false := by
          simp only [beq_eq_false_iff_ne, ne_eq]
          exact hj
        simp only [getSettingVal, List.find?, hbeq] at *
        exact ih

/-- Committing one valid settings pair: validation passes, the store is
updated, the pair is appended to the callback list (HEADER_TABLE_SIZE also
updates the encoder table size control). -/
theorem applySettingsLoop_cons_valid (s : CodecState) (id v : Nat)
    (rest acc : List (Nat × Nat)) (h : validSetting (id, v)) :
    applySettingsLoop s ((id, v) :: rest) acc =
      applySettingsLoop
        { (if id = kSettingHeaderTableSize then { s with encoderTableSize := v }
            else s) with
            ingressSettings := setSetting s.ingressSettings id v }
        rest (acc ++ [(id, v)]) := by
  obtain ⟨h2, h4, h5⟩ := h
  rw [applySettingsLoop]
  dsimp only
  by_cases e1 : id = kSettingHeaderTableSize
  · rw [if_pos e1, if_pos e1]
  · rw [if_neg e1, if_neg e1]
    by_cases e2 : id = kSettingEnablePush
    · rw [if_pos e2]
      have : ¬(v ≠ 0 ∧ v ≠ 1) := by
        have := h2 e2
        tauto
      rw [if_neg this]
    · rw [if_neg e2]
      by_cases e4 : id = kSettingInitialWindowSize
      · rw [if_pos e4]
        have : ¬kMaxWindowUpdateSize < v := by
          have := h4 e4
          omega
        rw [if_neg this]
      · rw [if_neg e4]
        by_cases e5 : id = kSettingMaxFrameSize
        · rw [if_pos e5]
          have : ¬(v < kMaxFramePayloadLengthMin ∨ kMaxFramePayloadLength < v) := by
            have := h5 e5
            omega
          rw [if_neg this]
        · rw [if_neg e5]

/-- A pair whose id carries no validation rule is always valid. -/
theorem validSetting_other (id v : Nat) (h2 : id ≠ kSettingEnablePush)
    (h4 : id ≠ kSettingInitialWindowSize) (h5 : id ≠ kSettingMaxFrameSize) :
    validSetting (id, v) :=
  ⟨fun h => absurd h h2, fun h => absurd h h4, fun h => absurd h h5⟩

/-- ENABLE_PUSH with value 0 or 1 is valid. -/
theorem validSetting_enable_push (v : Nat) (hv : v = 0 ∨ v = 1) :
    validSetting (kSettingEnablePush, v) :=
  ⟨fun _ => hv,
    fun h => absurd (show kSettingEnablePush = kSettingInitialWindowSize from h)
      (by decide),
    fun h => absurd (show kSettingEnablePush = kSettingMaxFrameSize from h)
      (by decide)⟩

/-- INITIAL_WINDOW_SIZE within 2^31 − 1 is valid. -/
theorem validSetting_window (v : Nat) (hv : v ≤ kMaxWindowUpdateSize) :
    validSetting (kSettingInitialWindowSize, v) :=
  ⟨fun h => absurd (show kSettingInitialWindowSize = kSettingEnablePush from h)
      (by decide),
    fun _ => hv,
    fun h => absurd (show kSettingInitialWindowSize = kSettingMaxFrameSize from h)
      (by decide)⟩

/-- MAX_FRAME_SIZE in the legal range is valid. -/
theorem validSetting_frame_size (v : Nat)
    (hv : kMaxFramePayloadLengthMin ≤ v ∧ v ≤ kMaxFramePayloadLength) :
    validSetting (kSettingMaxFrameSize, v) :=
  ⟨fun h => absurd (show kSettingMaxFrameSize = kSettingEnablePush from h)
      (by decide),
    fun h => absurd (show kSettingMaxFrameSize = kSettingInitialWindowSize from h)
      (by decide),
    fun _ => hv⟩

/-- A settings list containing an invalid pair makes the commit loop return
PROTOCOL_ERROR. -/
theorem applySettingsLoop_invalid :
    ∀ (pairs : List (Nat × Nat)) (s : CodecState) (acc : List (Nat × Nat)),
      (∃ p ∈ pairs, ¬validSetting p) →
      (applySettingsLoop s pairs acc).2.2 = ErrorCode.PROTOCOL_ERROR := by
  intro pairs
  induction pairs with
  | nil =>
    intro s acc h
    simp at h
  | cons q rest ih =>
    intro s acc h
    obtain ⟨id, v⟩ := q
    by_cases hv : validSetting (id, v)
    · rw [applySettingsLoop_cons_valid s id v rest acc hv]
      apply ih
      obtain ⟨p, hp, hnv⟩ := h
      rcases List.mem_cons.mp hp with hp | hp
      · exact absurd (hp ▸ hv) hnv
      · exact ⟨p, hp, hnv⟩
    · rw [applySettingsLoop]
      dsimp only
      by_cases e1 : id = kSettingHeaderTableSize
      · exact absurd (e1 ▸ validSetting_other id v (by rw [e1]; decide)
          (by rw [e1]; decide) (by rw [e1]; decide)) hv
      · rw [if_neg e1]
        by_cases e2 : id = kSettingEnablePush
        · rw [if_pos e2]
          by_cases hvv : v = 0 ∨ v = 1
          · exact absurd (e2 ▸ validSetting_enable_push v hvv) hv
          · rw [if_pos (by tauto)]
        · rw [if_neg e2]
          by_cases e4 : id = kSettingInitialWindowSize
          · rw [if_pos e4]
            by_cases hvv : v ≤ kMaxWindowUpdateSize
            · exact absurd (e4 ▸ validSetting_window v hvv) hv
            · rw [if_pos (by omega)]
          · rw [if_neg e4]
            by_cases e5 : id = kSettingMaxFrameSize
            · rw [if_pos e5]
              by_cases hvv : kMaxFramePayloadLengthMin ≤ v ∧ v ≤ kMaxFramePayloadLength
              · exact absurd (e5 ▸ validSetting_frame_size v hvv) hv
              · rw [if_pos (by omega)]
            · exact absurd (validSetting_other id v e2 e4 e5) hv

/-- An all-valid settings list commits every pair in order, collects exactly
the given pairs for the callback, and returns no error; the resulting store
maps each id to the last value given for it. -/
theorem applySettingsLoop_all_valid :
    ∀ (pairs : List (Nat × Nat)) (s : CodecState) (acc : List (Nat × Nat)),
      (∀ p ∈ pairs, validSetting p) →
      (applySettingsLoop s pairs acc).2.1 = acc ++ pairs ∧
      (applySettingsLoop s pairs acc).2.2 = ErrorCode.NO_ERROR ∧
      (∀ j, getSettingVal (applySettingsLoop s pairs acc).1.ingressSettings j =
        match lastVal pairs j with
        | some v => some v
        | none => getSettingVal s.ingressSettings j) := by
  intro pairs
  induction pairs with
  | nil =>
    intro s acc _
    refine ⟨by simp [applySettingsLoop], by simp [applySettingsLoop], ?_⟩
    intro j
    simp [applySettingsLoop, lastVal]
  | cons q rest ih =>
    intro s acc h
    obtain ⟨id, v⟩ := q
    have hv : validSetting (id, v) := h _ (List.mem_cons_self _ _)
    have hrest : ∀ p ∈ rest, validSetting p := fun p hp =>
      h p (List.mem_cons_of_mem _ hp)
    rw [applySettingsLoop_cons_valid s id v rest acc hv]
    obtain ⟨ih1, ih2, ih3⟩ := ih _ (acc ++ [(id, v)]) hrest
    refine ⟨by rw [ih1]; simp, ih2, ?_⟩
    intro j
    rw [ih3 j]
    have hget : getSettingVal
        ({ (if id = kSettingHeaderTableSize then { s with encoderTableSize := v }
            else s) with
            ingressSettings := setSetting s.ingressSettings id v }).ingressSettings j =
        if j = id then some v else getSettingVal s.ingressSettings j := by
      exact getSettingVal_setSetting s.ingressSettings id v j
    rw [hget]
    show (match lastVal rest j with
          | some w => some w
          | none => if j = id then some v else getSettingVal s.ingressSettings j) =
        (match lastVal ((id, v) :: rest) j with
          | some w => some w
          | none => getSettingVal s.ingressSettings j)
    rw [lastVal]
    cases lastVal rest j with
    | none =>
      dsimp only
      by_cases hj : j = id
      · rw [if_pos hj, if_pos (hj ▸ rfl : (id, v).1 = j)]
      · rw [if_neg hj, if_neg (fun hc : (id, v).1 = j => hj hc.symm)]
    | some w => rfl

/-- C5: non-ACK SETTINGS handling — an invalid pair (ENABLE_PUSH not 0/1,
INITIAL_WINDOW_SIZE over 2^31−1, MAX_FRAME_SIZE outside the legal range)
yields PROTOCOL_ERROR; when every pair is valid, all pairs are committed to
`ingressSettings_` (each id maps to its last given value) and exactly one
`onSettings` callback carries the full received list. -/
theorem c5_settings (s : CodecState) (pairs : List (Nat × Nat))
    (hnack : testFlag s.curHeader.flags kFlagAck = false) :
    ((∃ p ∈ pairs, ¬validSetting p) →
      (parseSettingsPairs s pairs).err = ErrorCode.PROTOCOL_ERROR) ∧
    ((∀ p ∈ pairs, validSetting p) →
      (parseSettingsPairs s pairs).err = ErrorCode.NO_ERROR ∧
      (parseSettingsPairs s pairs).events = [Event.onSettings pairs] ∧
      (∀ j, getSettingVal (parseSettingsPairs s pairs).state.ingressSettings j =
        match lastVal pairs j with
        | some v => some v
        | none => getSettingVal s.ingressSettings j)) := by
  constructor
  · intro hbad
    have herr := applySettingsLoop_invalid pairs s [] hbad
    unfold parseSettingsPairs
    rw [hnack, if_neg (show ¬(false = true) by decide)]
    rcases happly : applySettingsLoop s pairs [] with ⟨s', acc, e⟩
    rw [happly] at herr
    dsimp only at herr ⊢
    rw [if_neg (by rw [herr]; decide)]
    exact herr
  · intro hok
    obtain ⟨h1, h2, h3⟩ := applySettingsLoop_all_valid pairs s [] hok
    unfold parseSettingsPairs
    rw [hnack, if_neg (show ¬(false = true) by decide)]
    rcases happly : applySettingsLoop s pairs [] with ⟨s', acc, e⟩
    rw [happly] at h1 h2 h3
    dsimp only at h1 h2 h3 ⊢
    subst h2
    rw [if_pos rfl]
    refine ⟨rfl, ?_, h3⟩
    rw [h1]
    simp

/-- C5 witness: the valid list [(ENABLE_PUSH, 1), (MAX_FRAME_SIZE, 16384),
(unknown id 99, 7)] commits all pairs and reports them in one callback. -/
theorem c5_settings_witness :
    (parseSettingsPairs
        { (initialCodecState TransportDirection.DOWNSTREAM) with
            curHeader := { length := 18, ftype := 4, flags := 0, stream := 0 } }
        [(2, 1), (5, 16384), (99, 7)]).err = ErrorCode.NO_ERROR ∧
    (parseSettingsPairs
        { (initialCodecState TransportDirection.DOWNSTREAM) with
            curHeader := { length := 18, ftype := 4, flags := 0, stream := 0 } }
        [(2, 1), (5, 16384), (99, 7)]).events =
      [Event.onSettings [(2, 1), (5, 16384), (99, 7)]] ∧
    getSettingVal
        (parseSettingsPairs
          { (initialCodecState TransportDirection.DOWNSTREAM) with
              curHeader := { length := 18, ftype := 4, flags := 0, stream := 0 } }
          [(2, 1), (5, 16384), (99, 7)]).state.ingressSettings 5 = some 16384 := by
  have h := (c5_settings
    { (initialCodecState TransportDirection.DOWNSTREAM) with
        curHeader := { length := 18, ftype := 4, flags := 0, stream := 0 } }
    [(2, 1), (5, 16384), (99, 7)] (by decide)).2 (by decide)
  exact ⟨h.1, h.2.1, h.2.2 5⟩

/-- A failed `setMethod` leaves a nonempty error string. -/
theorem setMethod_false_error (v : HTTPRequestVerifier) (m : String)
    (h : (v.setMethod m).2 = false) : (v.setMethod m).1.error ≠ "" := by
  unfold HTTPRequestVerifier.setMethod at h ⊢
  split_ifs at h ⊢ <;> simp_all

/-- A failed `setPath` leaves a nonempty error string. -/
theorem setPath_false_error (v : HTTPRequestVerifier) (m : String)
    (h : (v.setPath m).2 = false) : (v.setPath m).1.error ≠ "" := by
  unfold HTTPRequestVerifier.setPath at h ⊢
  split_ifs at h ⊢ <;> simp_all

/-- A failed `setScheme` leaves a nonempty error string. -/
theorem setScheme_false_error (v : HTTPRequestVerifier) (m : String)
    (h : (v.setScheme m).2 = false) : (v.setScheme m).1.error ≠ "" := by
  unfold HTTPRequestVerifier.setScheme at h ⊢
  split_ifs at h ⊢ <;> simp_all

/-- A failed `setAuthority` leaves a nonempty error string. -/
theorem setAuthority_false_error (v : HTTPRequestVerifier) (m : String)
    (h : (v.setAuthority m).2 = false) : (v.setAuthority m).1.error ≠ "" := by
  unfold HTTPRequestVerifier.setAuthority at h ⊢
  split_ifs at h ⊢ <;> simp_all

/-- `validate` does not clear an already-set error. -/
theorem validate_of_error_ne (v : HTTPRequestVerifier) (h : v.error ≠ "") :
    v.validate = v := by
  unfold HTTPRequestVerifier.validate
  rw [if_pos h]

/-- The validation loop, run on a list containing a regular header named
exactly `connection`, never completes normally: it exits with an early error
return, or breaks out with a failed verifier (nonempty error). -/
theorem parseHeaderListLoop_conn (isRequest : Bool) :
    ∀ (list : List (String × String)) (v : HTTPRequestVerifier) (hs rs : Bool),
      (∃ p ∈ list, p.1 = "connection") →
      (∃ e, parseHeaderListLoop isRequest list v hs rs = .ret e) ∨
      (∃ v' hs', parseHeaderListLoop isRequest list v hs rs = .brk v' hs' ∧
        v'.error ≠ "") := by
  intro list
  induction list with
  | nil =>
    intro v hs rs hconn
    simp at hconn
  | cons p rest ih =>
    intro v hs rs hconn
    obtain ⟨n, val⟩ := p
    rw [parseHeaderListLoop]
    by_cases hcol : startsWithColon n = true
    · have hrest : ∃ q ∈ rest, q.1 = "connection" := by
        obtain ⟨q, hq, hqe⟩ := hconn
        rcases List.mem_cons.mp hq with hq | hq
        · exfalso
          rw [hq] at hqe
          dsimp only at hqe
          rw [hqe] at hcol
          exact absurd hcol (by decide)
        · exact ⟨q, hq, hqe⟩
      rw [if_pos hcol]
      by_cases hrs : rs = true
      · rw [if_pos hrs]
        exact Or.inl ⟨_, rfl⟩
      · rw [if_neg hrs]
        by_cases hreq : isRequest = true
        · rw [if_pos hreq]
          by_cases hm : n = ":method"
          · rw [if_pos hm]
            rcases hset : v.setMethod val with ⟨v', b⟩
            cases b
            · refine Or.inr ⟨v', hs, rfl, ?_⟩
              have := setMethod_false_error v val (by rw [hset])
              rw [hset] at this
              exact this
            · exact ih v' hs rs hrest
          · rw [if_neg hm]
            by_cases hsch : n = ":scheme"
            · rw [if_pos hsch]
              rcases hset : v.setScheme val with ⟨v', b⟩
              cases b
              · refine Or.inr ⟨v', hs, rfl, ?_⟩
                have := setScheme_false_error v val (by rw [hset])
                rw [hset] at this
                exact this
              · exact ih v' hs rs hrest
            · rw [if_neg hsch]
              by_cases hauth : n = ":authority"
              · rw [if_pos hauth]
                rcases hset : v.setAuthority val with ⟨v', b⟩
                cases b
                · refine Or.inr ⟨v', hs, rfl, ?_⟩
                  have := setAuthority_false_error v val (by rw [hset])
                  rw [hset] at this
                  exact this
                · exact ih v' hs rs hrest
              · rw [if_neg hauth]
                by_cases hpath : n = ":path"
                · rw [if_pos hpath]
                  rcases hset : v.setPath val with ⟨v', b⟩
                  cases b
                  · refine Or.inr ⟨v', hs, rfl, ?_⟩
                    have := setPath_false_error v val (by rw [hset])
                    rw [hset] at this
                    exact this
                  · exact ih v' hs rs hrest
                · rw [if_neg hpath]
                  exact Or.inl ⟨_, rfl⟩
        · rw [if_neg hreq]
          by_cases hst : n = ":status"
          · rw [if_pos hst]
            by_cases hhs : hs = true
            · rw [if_pos hhs]
              exact Or.inl ⟨_, rfl⟩
            · rw [if_neg hhs]
              rcases hnum : statusFromString val with _ | code
              · dsimp only
                exact Or.inl ⟨_, rfl⟩
              · dsimp only
                by_cases hrange : 100 ≤ code ∧ code ≤ 999
                · rw [if_pos hrange]
                  exact ih _ true rs hrest
                · rw [if_neg hrange]
                  exact Or.inl ⟨_, rfl⟩
          · rw [if_neg hst]
            exact Or.inl ⟨_, rfl⟩
    · rw [if_neg hcol]
      by_cases hn : n = "connection"
      · rw [if_pos hn]
        exact Or.inl ⟨_, rfl⟩
      · rw [if_neg hn]
        have hrest : ∃ q ∈ rest, q.1 = "connection" := by
          obtain ⟨q, hq, hqe⟩ := hconn
          rcases List.mem_cons.mp hq with hq | hq
          · exfalso
            rw [hq] at hqe
            exact hn hqe
          · exact ⟨q, hq, hqe⟩
        dsimp only
        by_cases hok : (validateHeaderName n && validateHeaderValue val) = true
        · rw [if_neg (by simp [hok])]
          exact ih _ hs true hrest
        · rw [if_pos (by simp [hok])]
          exact Or.inl ⟨_, rfl⟩

/-- When the verifier holds an error, the epilogue reports it (or the missing
`:status` on responses) as a validation error. -/
theorem parseHeaderListFinish_error (isRequest : Bool) (v : HTTPRequestVerifier)
    (hs : Bool) (h : v.error ≠ "") :
    ∃ e, parseHeaderListFinish isRequest v hs = .error e := by
  unfold parseHeaderListFinish
  by_cases hreq : isRequest = true
  · rw [if_pos hreq]
    dsimp only
    by_cases hcomb : combineCookies v.msg.headers = ""
    · rw [if_neg (not_not_intro hcomb)]
      rw [validate_of_error_ne v h, if_pos h]
      exact ⟨_, rfl⟩
    · rw [if_pos hcomb]
      have h1 : ({ v with msg := { v.msg with
          headers := setCookieHeader v.msg.headers (combineCookies v.msg.headers) } }
          : HTTPRequestVerifier).error ≠ "" := h
      rw [validate_of_error_ne _ h1, if_pos h1]
      exact ⟨_, rfl⟩
  · rw [if_neg hreq]
    by_cases hhs : hs = true
    · rw [hhs]
      rw [if_neg (by decide), if_pos h]
      exact ⟨_, rfl⟩
    · rw [Bool.not_eq_true] at hhs
      rw [hhs]
      rw [if_pos (by decide)]
      exact ⟨_, rfl⟩

/-- `parseHeaderList` rejects every list containing a regular header named
exactly `connection`. -/
theorem parseHeaderList_conn (list : List (String × String)) (isRequest : Bool)
    (hconn : ∃ p ∈ list, p.1 = "connection") :
    ∃ e, parseHeaderList list isRequest = .error e := by
  unfold parseHeaderList
  rcases parseHeaderListLoop_conn isRequest list { msg := {} } false false hconn
    with ⟨e, he⟩ | ⟨v', hs', he, herr⟩
  · rw [he]
    exact ⟨e, rfl⟩
  · rw [he]
    exact parseHeaderListFinish_error isRequest v' hs' herr

/-- C7 (amended): a successfully decoded header list containing a regular
header named exactly `connection` always fails validation, and the codec
reports it as a STREAM error — `onError(stream, http_status=400,
new_txn=true)` and ErrorCode NO_ERROR — not as a connection-level error. -/
theorem c7_connection_header (s : CodecState) (buf : List Nat)
    (priority : Option PriorityUpdate) (promisedStream : Option Nat)
    (list : List (String × String))
    (hEH : testFlag s.curHeader.flags kFlagEndHeaders = true)
    (hdec : hpackDecode (s.curHeaderBlock ++ buf) = some list)
    (hconn : ∃ p ∈ list, p.1 = "connection") :
    parseHeadersImpl s buf priority promisedStream =
      { state := { s with curHeaderBlock := [] }
        events := [Event.onError s.curHeader.stream none (some 400) true]
        err := ErrorCode.NO_ERROR } := by
  obtain ⟨e, he⟩ := parseHeaderList_conn list
    (decide (s.direction = TransportDirection.DOWNSTREAM ∨ promisedStream.isSome = true))
    hconn
  unfold parseHeadersImpl
  dsimp only
  rw [if_pos hEH, hdec]
  dsimp only
  rw [he]

/-- C7 counterexample: decoding the single header `connection: close` on
stream 1 of a downstream codec produces the stream error
`onError(1, 400, new_txn=true)` with ErrorCode NO_ERROR (no connection-level
escalation as the claim requires); and a request list carrying the header
name `Connection` — whose LOWERCASED form is `connection` — passes
validation, so the claimed lowercased comparison does not happen either. -/
theorem c7_connection_header_counterexample :
    (parseHeadersImpl
        { (initialCodecState TransportDirection.DOWNSTREAM) with
            curHeader := { length := 17, ftype := 1, flags := 4, stream := 1 } }
        (hpackEncode [("connection", "close")]) none none).err =
      ErrorCode.NO_ERROR ∧
    (parseHeadersImpl
        { (initialCodecState TransportDirection.DOWNSTREAM) with
            curHeader := { length := 17, ftype := 1, flags := 4, stream := 1 } }
        (hpackEncode [("connection", "close")]) none none).events =
      [Event.onError 1 none (some 400) true] ∧
    (parseHeaderList
        [(":method", "GET"), (":scheme", "http"), (":path", "/"),
          ("Connection", "keep-alive")] true).isOk = true := by
  refine ⟨?_, ?_, ?_⟩ <;> decide

/-- C7 witness: the amended stream-error behavior at the concrete decoded
list `[("connection", "close")]`. -/
theorem c7_connection_header_witness :
    parseHeadersImpl
        { (initialCodecState TransportDirection.DOWNSTREAM) with
            curHeader := { length := 17, ftype := 1, flags := 4, stream := 1 } }
        (hpackEncode [("connection", "close")]) none none =
      { state :=
          { (initialCodecState TransportDirection.DOWNSTREAM) with
              curHeader := { length := 17, ftype := 1, flags := 4, stream := 1 }
              curHeaderBlock := [] }
        events := [Event.onError 1 none (some 400) true]
        err := ErrorCode.NO_ERROR } :=
  c7_connection_header _ _ none none [("connection", "close")] (by decide)
    (by decide) ⟨("connection", "close"), by decide, rfl⟩

/-- A list with positive length is not empty. -/
theorem isEmpty_false_of_length_pos {α : Type} (l : List α) (h : 0 < l.length) :
    l.isEmpty = false := by
  cases l with
  | nil => simp at h
  | cons a t => rfl

/-- The CONTINUATION fragmentation loop: with positive split size and a
nonempty queue it emits exactly `⌈len / split⌉` CONTINUATION frames on the
given stream, each chunk at most `split` bytes, with END_HEADERS set on the
last frame only. -/
theorem contFragments_spec (split stream : Nat) (hs : 0 < split) :
    ∀ (fuel : Nat) (buf : List Nat), buf.length ≤ fuel → 0 < buf.length →
      ((contFragments split stream fuel buf).map EgressFrame.ftype =
        List.replicate ((buf.length + split - 1) / split) kFrameContinuation) ∧
      ((contFragments split stream fuel buf).map EgressFrame.endHeaders =
        List.replicate ((buf.length + split - 1) / split - 1) false ++ [true]) ∧
      (∀ fr ∈ contFragments split stream fuel buf,
        fr.chunkLen ≤ split ∧ fr.stream = stream) := by
  intro fuel
  induction fuel with
  | zero =>
    intro buf hf hpos
    omega
  | succ fuel ih =>
    intro buf hf hpos
    by_cases hcase : buf.length ≤ split
    · have hmin : min split buf.length = buf.length := Nat.min_eq_right hcase
      have hdrop : buf.drop (min split buf.length) = [] := by
        rw [hmin]
        exact List.drop_length buf
      have hceil : (buf.length + split - 1) / split = 1 := by
        apply Nat.div_eq_of_lt_le
        · omega
        · omega
      simp only [contFragments, hmin, hdrop]
      refine ⟨?_, ?_, ?_⟩
      · simp [hceil]
      · simp [hceil]
      · intro fr hfr
        simp at hfr
        subst hfr
        exact ⟨hcase, rfl⟩
    · have hmin : min split buf.length = split :=
        Nat.min_eq_left (Nat.le_of_lt (Nat.lt_of_not_le hcase))
      have hrlen : (buf.drop (min split buf.length)).length = buf.length - split := by
        rw [hmin, List.length_drop]
      have hne : (buf.drop (min split buf.length)).isEmpty = false :=
        isEmpty_false_of_length_pos _ (by omega)
      have hrpos : 0 < (buf.drop (min split buf.length)).length := by omega
      have hrfuel : (buf.drop (min split buf.length)).length ≤ fuel := by omega
      obtain ⟨ih1, ih2, ih3⟩ := ih _ hrfuel hrpos
      have harith : (buf.length + split - 1) / split =
          ((buf.drop (min split buf.length)).length + split - 1) / split + 1 := by
        rw [hrlen]
        have e1 : buf.length + split - 1 = (buf.length - 1) + split := by omega
        have e2 : buf.length - split + split - 1 = buf.length - 1 := by omega
        rw [e1, e2, Nat.add_div_right _ hs]
      have hge1 : 1 ≤ ((buf.drop (min split buf.length)).length + split - 1) / split := by
        rw [Nat.le_div_iff_mul_le hs]
        omega
      simp only [contFragments, hne]
      refine ⟨?_, ?_, ?_⟩
      · simp only [Bool.false_eq_true, if_false, List.map_cons, ih1, harith,
          List.replicate_succ]
      · simp only [Bool.false_eq_true, if_false, List.map_cons, ih2, harith]
        have e3 : ((buf.drop (min split buf.length)).length + split - 1) / split + 1 - 1 =
            (((buf.drop (min split buf.length)).length + split - 1) / split - 1) + 1 := by
          omega
        rw [e3, List.replicate_succ]
        simp
      · intro fr hfr
        simp only [Bool.false_eq_true, if_false, List.mem_cons] at hfr
        rcases hfr with hfr | hfr
        · subst hfr
          exact ⟨Nat.min_le_left _ _, rfl⟩
        · exact ih3 fr hfr

/-- C8: header-block fragmentation on egress — for an encoded block longer
than `kHeaderSplitSize`, `generateHeader` emits one HEADERS (or PUSH_PROMISE
when an associated stream is given) followed by exactly ⌈N/split⌉ − 1
CONTINUATION frames, every chunk at most `split` bytes, END_HEADERS on the
final frame only. -/
theorem c8_header_fragmentation (split stream assocStream : Nat)
    (buf : List Nat) (hs : 0 < split) (hb : split < buf.length) :
    (generateHeaderFrames split stream assocStream buf).length =
        (buf.length + split - 1) / split ∧
    ((generateHeaderFrames split stream assocStream buf).map EgressFrame.ftype =
        (if assocStream = 0 then kFrameHeaders else kFramePushPromise) ::
          List.replicate ((buf.length + split - 1) / split - 1) kFrameContinuation) ∧
    ((generateHeaderFrames split stream assocStream buf).map EgressFrame.endHeaders =
        List.replicate ((buf.length + split - 1) / split - 1) false ++ [true]) ∧
    (∀ fr ∈ generateHeaderFrames split stream assocStream buf,
      fr.chunkLen ≤ split ∧ fr.stream = stream) := by
  have hne : buf.isEmpty = false :=
    isEmpty_false_of_length_pos _ (by omega)
  have hmin : min split buf.length = split := Nat.min_eq_left (Nat.le_of_lt hb)
  have hrlen : (buf.drop (min split buf.length)).length = buf.length - split := by
    rw [hmin, List.length_drop]
  have hreh : (buf.drop (min split buf.length)).isEmpty = false :=
    isEmpty_false_of_length_pos _ (by omega)
  have hrpos : 0 < (buf.drop (min split buf.length)).length := by omega
  have hrfuel : (buf.drop (min split buf.length)).length ≤ buf.length := by omega
  obtain ⟨h1, h2, h3⟩ := contFragments_spec split stream hs buf.length _ hrfuel hrpos
  have harith : (buf.length + split - 1) / split =
      ((buf.drop (min split buf.length)).length + split - 1) / split + 1 := by
    rw [hrlen]
    have e1 : buf.length + split - 1 = (buf.length - 1) + split := by omega
    have e2 : buf.length - split + split - 1 = buf.length - 1 := by omega
    rw [e1, e2, Nat.add_div_right _ hs]
  have hge1 : 1 ≤ ((buf.drop (min split buf.length)).length + split - 1) / split := by
    rw [Nat.le_div_iff_mul_le hs]
    omega
  have hmap2 : (generateHeaderFrames split stream assocStream buf).map
      EgressFrame.ftype =
      (if assocStream = 0 then kFrameHeaders else kFramePushPromise) ::
        List.replicate ((buf.length + split - 1) / split - 1) kFrameContinuation := by
    unfold generateHeaderFrames
    rw [hne]
    simp only [Bool.false_eq_true, if_false, hreh]
    by_cases ha : assocStream = 0 <;>
      simp only [ha, if_true, if_false, List.map_cons, h1, harith] <;>
      simp
  refine ⟨?_, hmap2, ?_, ?_⟩
  · have := congrArg List.length hmap2
    simpa [harith] using this
  · unfold generateHeaderFrames
    rw [hne]
    simp only [Bool.false_eq_true, if_false, hreh]
    have e3 : ((buf.drop (min split buf.length)).length + split - 1) / split + 1 - 1 =
        (((buf.drop (min split buf.length)).length + split - 1) / split - 1) + 1 := by
      omega
    by_cases ha : assocStream = 0 <;>
      simp only [ha, if_true, if_false, List.map_cons, h2, harith, e3,
        List.replicate_succ] <;>
      simp
  · unfold generateHeaderFrames
    rw [hne]
    simp only [Bool.false_eq_true, if_false, hreh]
    intro fr hfr
    by_cases ha : assocStream = 0 <;>
      simp only [ha, if_true, if_false, List.mem_cons] at hfr <;>
      rcases hfr with hfr | hfr
    · subst hfr
      exact ⟨Nat.min_le_left _ _, rfl⟩
    · exact h3 fr hfr
    · subst hfr
      exact ⟨Nat.min_le_left _ _, rfl⟩
    · exact h3 fr hfr

/-- C8 witness: a 7-byte encoded block with split size 3 on stream 1 becomes
one HEADERS and two CONTINUATION frames, END_HEADERS last only. -/
theorem c8_header_fragmentation_witness :
    (generateHeaderFrames 3 1 0 [0, 1, 2, 3, 4, 5, 6]).length =
        ([0, 1, 2, 3, 4, 5, 6].length + 3 - 1) / 3 ∧
    ((generateHeaderFrames 3 1 0 [0, 1, 2, 3, 4, 5, 6]).map EgressFrame.ftype =
        (if 0 = 0 then kFrameHeaders else kFramePushPromise) ::
          List.replicate (([0, 1, 2, 3, 4, 5, 6].length + 3 - 1) / 3 - 1)
            kFrameContinuation) ∧
    ((generateHeaderFrames 3 1 0 [0, 1, 2, 3, 4, 5, 6]).map EgressFrame.endHeaders =
        List.replicate (([0, 1, 2, 3, 4, 5, 6].length + 3 - 1) / 3 - 1) false ++
          [true]) ∧
    (∀ fr ∈ generateHeaderFrames 3 1 0 [0, 1, 2, 3, 4, 5, 6],
      fr.chunkLen ≤ 3 ∧ fr.stream = 1) :=
  c8_header_fragmentation 3 1 0 [0, 1, 2, 3, 4, 5, 6] (by decide) (by decide)

/-- `checkNewStream` leaves `needHeader_` alone. -/
theorem checkNewStream_needHeader (s : CodecState) (id : Nat) :
    (checkNewStream s id).1.needHeader = s.needHeader := by
  unfold checkNewStream
  split
  · rfl
  · dsimp only
    split <;> rfl

/-- `parseHeadersImpl` leaves `needHeader_` alone. -/
theorem parseHeadersImpl_needHeader (s : CodecState) (b : List Nat)
    (pr : Option PriorityUpdate) (pm : Option Nat) :
    (parseHeadersImpl s b pr pm).state.needHeader = s.needHeader := by
  unfold parseHeadersImpl
  dsimp only
  split
  · split
    · rfl
    · split
      · rfl
      · rfl
  · rfl

/-- `parseHeadersCheck` leaves `needHeader_` alone. -/
theorem parseHeadersCheck_needHeader (s : CodecState) :
    (parseHeadersCheck s).1.needHeader = s.needHeader := by
  unfold parseHeadersCheck
  split
  · rcases hc : checkNewStream s s.curHeader.stream with ⟨s', e⟩
    dsimp only
    have := checkNewStream_needHeader s s.curHeader.stream
    rw [hc] at this
    exact this
  · split <;> rfl

/-- `parseHeaders` leaves `needHeader_` alone. -/
theorem parseHeaders_needHeader (s : CodecState) (p : List Nat) :
    (parseHeaders s p).state.needHeader = s.needHeader := by
  unfold parseHeaders
  split
  · rfl
  · split
    · next s' e heq =>
      have := parseHeadersCheck_needHeader s
      rw [heq] at this
      exact this
    · next s' heq =>
      have h2 := parseHeadersCheck_needHeader s
      rw [heq] at h2
      dsimp only at h2
      split
      · exact h2
      · rw [parseHeadersImpl_needHeader]
        exact h2

/-- `parseContinuation` leaves `needHeader_` alone. -/
theorem parseContinuation_needHeader (s : CodecState) (p : List Nat) :
    (parseContinuation s p).state.needHeader = s.needHeader :=
  parseHeadersImpl_needHeader s p none none

/-- `parseData` leaves `needHeader_` alone. -/
theorem parseData_needHeader (s : CodecState) (p : List Nat) :
    (parseData s p).state.needHeader = s.needHeader := by
  unfold parseData
  split <;> rfl

/-- `parsePriority` leaves `needHeader_` alone. -/
theorem parsePriority_needHeader (s : CodecState) (p : List Nat) :
    (parsePriority s p).state.needHeader = s.needHeader := by
  unfold parsePriority
  split <;> rfl

/-- `parseRstStream` leaves `needHeader_` alone. -/
theorem parseRstStream_needHeader (s : CodecState) (p : List Nat) :
    (parseRstStream s p).state.needHeader = s.needHeader := by
  unfold parseRstStream
  split <;> rfl

/-- `parsePing` leaves `needHeader_` alone. -/
theorem parsePing_needHeader (s : CodecState) (p : List Nat) :
    (parsePing s p).state.needHeader = s.needHeader := by
  unfold parsePing
  split <;> rfl

/-- `parseGoaway` leaves `needHeader_` alone. -/
theorem parseGoaway_needHeader (s : CodecState) (p : List Nat) :
    (parseGoaway s p).state.needHeader = s.needHeader := by
  unfold parseGoaway
  split
  · rfl
  · dsimp only
    split <;> rfl

/-- `parseWindowUpdate` leaves `needHeader_` alone. -/
theorem parseWindowUpdate_needHeader (s : CodecState) (p : List Nat) :
    (parseWindowUpdate s p).state.needHeader = s.needHeader := by
  unfold parseWindowUpdate
  split
  · rfl
  · dsimp only
    split
    · split <;> rfl
    · rfl

/-- The settings commit loop leaves `needHeader_` alone. -/
theorem applySettingsLoop_needHeader :
    ∀ (pairs : List (Nat × Nat)) (s : CodecState) (acc : List (Nat × Nat)),
      (applySettingsLoop s pairs acc).1.needHeader = s.needHeader := by
  intro pairs
  induction pairs with
  | nil => intro s acc; rfl
  | cons q rest ih =>
    intro s acc
    obtain ⟨id, v⟩ := q
    rw [applySettingsLoop]
    dsimp only
    split
    · exact ih _ _
    · split
      · split
        · rfl
        · exact ih _ _
      · split
        · split
          · rfl
          · exact ih _ _
        · split
          · split
            · rfl
            · exact ih _ _
          · exact ih _ _

/-- `parseSettingsPairs` leaves `needHeader_` alone. -/
theorem parseSettingsPairs_needHeader (s : CodecState) (pairs : List (Nat × Nat)) :
    (parseSettingsPairs s pairs).state.needHeader = s.needHeader := by
  unfold parseSettingsPairs
  split
  · rfl
  · rcases h : applySettingsLoop s pairs [] with ⟨s', acc, e⟩
    have := applySettingsLoop_needHeader pairs s []
    rw [h] at this
    dsimp only at this ⊢
    split <;> exact this

/-- `parseSettings` leaves `needHeader_` alone. -/
theorem parseSettings_needHeader (s : CodecState) (p : List Nat) :
    (parseSettings s p).state.needHeader = s.needHeader := by
  unfold parseSettings
  split
  · rfl
  · split
    · rfl
    · exact parseSettingsPairs_needHeader s _

/-- `parsePushPromise` leaves `needHeader_` alone. -/
theorem parsePushPromise_needHeader (s : CodecState) (p : List Nat) :
    (parsePushPromise s p).state.needHeader = s.needHeader := by
  unfold parsePushPromise
  split
  · rfl
  · split
    · rfl
    · split
      · rfl
      · next prom frag heq =>
        rcases hc : checkNewStream s prom with ⟨s', e⟩
        dsimp only
        have hs' : s'.needHeader = s.needHeader := by
          have := checkNewStream_needHeader s prom
          rw [hc] at this
          exact this
        split
        · exact hs'
        · split
          · exact hs'
          · rw [parseHeadersImpl_needHeader]
            exact hs'

/-- The per-type dispatch leaves `needHeader_` alone. -/
theorem dispatchFrame_needHeader (s : CodecState) (p : List Nat) :
    (dispatchFrame s p).state.needHeader = s.needHeader := by
  unfold dispatchFrame
  split_ifs <;>
    first
      | exact parseData_needHeader s p
      | exact parseHeaders_needHeader s p
      | exact parsePriority_needHeader s p
      | exact parseRstStream_needHeader s p
      | exact parseSettings_needHeader s p
      | exact parsePushPromise_needHeader s p
      | exact parsePing_needHeader s p
      | exact parseGoaway_needHeader s p
      | exact parseWindowUpdate_needHeader s p
      | exact parseContinuation_needHeader s p
      | rfl

/-- `parseFrame` leaves `needHeader_` alone: the ingress loop manages it. -/
theorem parseFrame_needHeader (s : CodecState) (p : List Nat) :
    (parseFrame s p).state.needHeader = s.needHeader := by
  unfold parseFrame
  split
  · rfl
  · split
    · rfl
    · dsimp only
      exact dispatchFrame_needHeader s p

/-- One loop iteration behaves identically on an extended buffer, and never
consumes more than the bytes it was given. -/
theorem ingressStep_mono (s : CodecState) (b ys : List Nat) (r : IngressResult)
    (h : ingressStep s b = some r) :
    ingressStep s (b ++ ys) = some r ∧ r.consumed ≤ b.length := by
  unfold ingressStep at h ⊢
  by_cases h1 : s.needConnectionPreface = true
  · rw [if_pos h1] at h ⊢
    by_cases h2 : 24 ≤ b.length
    · rw [if_pos h2] at h
      rw [if_pos (show 24 ≤ (b ++ ys).length by rw [List.length_append]; omega)]
      rw [List.take_append_of_le_length h2]
      by_cases h3 : b.take 24 = prefaceBytes
      · rw [if_pos h3] at h ⊢
        injection h with h
        subst h
        exact ⟨rfl, h2⟩
      · rw [if_neg h3] at h ⊢
        injection h with h
        subst h
        exact ⟨rfl, h2⟩
    · rw [if_neg h2] at h
      exact absurd h (by simp)
  · rw [if_neg h1] at h ⊢
    by_cases h4 : s.needHeader = true
    · rw [if_pos h4] at h ⊢
      by_cases h5 : 9 ≤ b.length
      · rw [if_pos h5] at h
        rw [if_pos (show 9 ≤ (b ++ ys).length by rw [List.length_append]; omega)]
        rw [List.take_append_of_le_length h5]
        dsimp only at h ⊢
        by_cases h6 : maxRecvFrameSize s < (parseFrameHeaderBytes (b.take 9)).length
        · rw [if_pos h6] at h ⊢
          injection h with h
          subst h
          exact ⟨rfl, h5⟩
        · rw [if_neg h6] at h ⊢
          injection h with h
          subst h
          exact ⟨rfl, h5⟩
      · rw [if_neg h5] at h
        exact absurd h (by simp)
    · rw [if_neg h4] at h ⊢
      by_cases h7 : s.curHeader.length ≤ b.length
      · rw [if_pos h7] at h
        rw [if_pos (show s.curHeader.length ≤ (b ++ ys).length by
          rw [List.length_append]; omega)]
        rw [List.take_append_of_le_length h7]
        dsimp only at h ⊢
        injection h with h
        subst h
        exact ⟨rfl, h7⟩
      · rw [if_neg h7] at h
        exact absurd h (by simp)

/-- An error-free loop iteration strictly decreases the fuel measure. -/
theorem ingressStep_fuel (s : CodecState) (b : List Nat) (r : IngressResult)
    (h : ingressStep s b = some r) (hok : r.connError = ErrorCode.NO_ERROR) :
    fuelFor r.state (b.drop r.consumed) < fuelFor s b := by
  unfold ingressStep at h
  by_cases h1 : s.needConnectionPreface = true
  · rw [if_pos h1] at h
    by_cases h2 : 24 ≤ b.length
    · rw [if_pos h2] at h
      by_cases h3 : b.take 24 = prefaceBytes
      · rw [if_pos h3] at h
        injection h with h
        subst h
        unfold fuelFor
        dsimp only
        by_cases hnh : s.needHeader = true <;>
          simp only [hnh, if_true, if_false, List.length_drop] <;>
          omega
      · rw [if_neg h3] at h
        injection h with h
        subst h
        simp at hok
    · rw [if_neg h2] at h
      exact absurd h (by simp)
  · rw [if_neg h1] at h
    by_cases h4 : s.needHeader = true
    · rw [if_pos h4] at h
      by_cases h5 : 9 ≤ b.length
      · rw [if_pos h5] at h
        dsimp only at h
        by_cases h6 : maxRecvFrameSize s < (parseFrameHeaderBytes (b.take 9)).length
        · rw [if_pos h6] at h
          injection h with h
          subst h
          simp at hok
        · rw [if_neg h6] at h
          injection h with h
          subst h
          unfold fuelFor
          dsimp only
          simp only [h4, if_true, if_false, Bool.false_eq_true, List.length_drop]
          omega
      · rw [if_neg h5] at h
        exact absurd h (by simp)
    · rw [if_neg h4] at h
      by_cases h7 : s.curHeader.length ≤ b.length
      · rw [if_pos h7] at h
        dsimp only at h
        injection h with h
        subst h
        have hnh : (parseFrame { s with needHeader := true }
            (b.take s.curHeader.length)).state.needHeader = true := by
          rw [parseFrame_needHeader]
        unfold fuelFor
        dsimp only
        simp only [hnh, h4, if_true, if_false, Bool.false_eq_true,
          List.length_drop]
        omega
      · rw [if_neg h7] at h
        exact absurd h (by simp)

/-- The fuel measure is at least 2. -/
theorem fuelFor_ge_two (s : CodecState) (b : List Nat) : 2 ≤ fuelFor s b := by
  unfold fuelFor
  split <;> omega

/-- With sufficient fuel the loop result does not depend on the exact fuel. -/
theorem ingressLoop_fuel_eq :
    ∀ (f g : Nat) (s : CodecState) (b : List Nat),
      fuelFor s b ≤ f → fuelFor s b ≤ g →
      ingressLoop f s b = ingressLoop g s b := by
  intro f
  induction f with
  | zero =>
    intro g s b hf _
    have := fuelFor_ge_two s b
    omega
  | succ f ih =>
    intro g s b hf hg
    have h2 := fuelFor_ge_two s b
    obtain ⟨g', rfl⟩ : ∃ g', g = g' + 1 := ⟨g - 1, by omega⟩
    rw [ingressLoop, ingressLoop]
    cases hstep : ingressStep s b with
    | none => rfl
    | some r =>
      dsimp only
      by_cases hok : r.connError = ErrorCode.NO_ERROR
      · rw [if_pos hok, if_pos hok]
        have hlt := ingressStep_fuel s b r hstep hok
        rw [ih g' r.state (b.drop r.consumed) (by omega) (by omega)]
      · rw [if_neg hok, if_neg hok]

/-- An error-free loop run stops because the remaining bytes are insufficient:
re-running a step on the residual makes no progress. -/
theorem ingressLoop_stall :
    ∀ (f : Nat) (s : CodecState) (b : List Nat),
      fuelFor s b ≤ f →
      (ingressLoop f s b).connError = ErrorCode.NO_ERROR →
      ingressStep (ingressLoop f s b).state (b.drop (ingressLoop f s b).consumed) =
        none := by
  intro f
  induction f with
  | zero =>
    intro s b hf _
    have := fuelFor_ge_two s b
    omega
  | succ f ih =>
    intro s b hf hok
    rw [ingressLoop] at hok ⊢
    cases hstep : ingressStep s b with
    | none =>
      dsimp only
      rw [List.drop_zero]
      exact hstep
    | some r =>
      rw [hstep] at hok
      dsimp only at hok ⊢
      by_cases hc : r.connError = ErrorCode.NO_ERROR
      · rw [if_pos hc] at hok ⊢
        unfold seqResult at hok ⊢
        dsimp only at hok ⊢
        have hlt := ingressStep_fuel s b r hstep hc
        have hres := ih r.state (b.drop r.consumed) (by omega) hok
        have hdd : b.drop (r.consumed +
            (ingressLoop f r.state (b.drop r.consumed)).consumed) =
            (b.drop r.consumed).drop
              (ingressLoop f r.state (b.drop r.consumed)).consumed := by
          rw [List.drop_drop]
        rw [hdd]
        exact hres
      · rw [if_neg hc] at hok
        exact absurd hok hc

/-- Projections of `seqResult`. -/
theorem seqResult_connError (a b : IngressResult) :
    (seqResult a b).connError = b.connError := rfl

/-- The state of a composed result is the second state. -/
theorem seqResult_state (a b : IngressResult) :
    (seqResult a b).state = b.state := rfl

/-- The consumption of a composed result is the sum. -/
theorem seqResult_consumed (a b : IngressResult) :
    (seqResult a b).consumed = a.consumed + b.consumed := rfl

/-- The events of a composed result are concatenated. -/
theorem seqResult_events (a b : IngressResult) :
    (seqResult a b).events = a.events ++ b.events := rfl

/-- Sequential composition of loop results is associative. -/
theorem seqResult_assoc (a b c : IngressResult) :
    seqResult a (seqResult b c) = seqResult (seqResult a b) c := by
  unfold seqResult
  dsimp only
  rw [Nat.add_assoc, List.append_assoc]

/-- Decomposition of a loop run over concatenated byte buffers: if the run on
the prefix errors, extra bytes change nothing; if it succeeds, the combined
run equals the prefix run followed by a run from its final state on the
residual plus the extra bytes. -/
theorem ingressLoop_append :
    ∀ (f g : Nat) (s : CodecState) (xs ys : List Nat),
      fuelFor s xs ≤ f → fuelFor s (xs ++ ys) ≤ g →
      ingressLoop g s (xs ++ ys) =
        (if (ingressLoop f s xs).connError = ErrorCode.NO_ERROR then
          seqResult (ingressLoop f s xs)
            (ingressRun (ingressLoop f s xs).state
              (xs.drop (ingressLoop f s xs).consumed ++ ys))
        else ingressLoop f s xs) := by
  intro f
  induction f with
  | zero =>
    intro g s xs ys hf _
    have := fuelFor_ge_two s xs
    omega
  | succ f ih =>
    intro g s xs ys hf hg
    have h2 := fuelFor_ge_two s (xs ++ ys)
    obtain ⟨g', rfl⟩ : ∃ g', g = g' + 1 := ⟨g - 1, by omega⟩
    cases hstep : ingressStep s xs with
    | none =>
      conv_rhs => rw [ingressLoop, hstep]
      dsimp only
      rw [if_pos rfl, List.drop_zero]
      rw [ingressLoop_fuel_eq (g' + 1) (fuelFor s (xs ++ ys)) s (xs ++ ys) hg
        (Nat.le_refl _)]
      unfold ingressRun
      unfold seqResult
      dsimp only
      simp
    | some r =>
      obtain ⟨hstep2, hcons⟩ := ingressStep_mono s xs ys r hstep
      by_cases hok : r.connError = ErrorCode.NO_ERROR
      · rw [ingressLoop, hstep2]
        dsimp only
        rw [if_pos hok]
        conv_rhs => rw [ingressLoop, hstep]
        dsimp only
        rw [if_pos hok]
        have hdropapp : (xs ++ ys).drop r.consumed = xs.drop r.consumed ++ ys :=
          List.drop_append_of_le_length hcons
        rw [hdropapp]
        have hlt1 := ingressStep_fuel s xs r hstep hok
        have hlt2 := ingressStep_fuel s (xs ++ ys) r hstep2 hok
        rw [hdropapp] at hlt2
        rw [ih g' r.state (xs.drop r.consumed) ys (by omega) (by omega)]
        simp only [seqResult_connError, seqResult_state, seqResult_consumed]
        by_cases hok2 :
            (ingressLoop f r.state (xs.drop r.consumed)).connError =
              ErrorCode.NO_ERROR
        · rw [if_pos hok2, if_pos hok2]
          rw [List.drop_drop]
          exact seqResult_assoc r _ _
        · rw [if_neg hok2, if_neg hok2]
      · rw [ingressLoop, hstep2]
        dsimp only
        rw [if_neg hok]
        conv_rhs => rw [ingressLoop, hstep]
        dsimp only
        rw [if_neg hok]
        rw [if_neg hok]

/-- `ingressRun` restatement of `ingressLoop_append`, error case. -/
theorem ingressRun_append_err (s : CodecState) (xs ys : List Nat)
    (h : (ingressRun s xs).connError ≠ ErrorCode.NO_ERROR) :
    ingressRun s (xs ++ ys) = ingressRun s xs := by
  have h' : ¬(ingressLoop (fuelFor s xs) s xs).connError = ErrorCode.NO_ERROR := h
  have happ := ingressLoop_append (fuelFor s xs) (fuelFor s (xs ++ ys)) s xs ys
    (Nat.le_refl _) (Nat.le_refl _)
  rw [if_neg h'] at happ
  exact happ

/-- `ingressRun` restatement of `ingressLoop_append`, error-free case. -/
theorem ingressRun_append_ok (s : CodecState) (xs ys : List Nat)
    (h : (ingressRun s xs).connError = ErrorCode.NO_ERROR) :
    ingressRun s (xs ++ ys) =
      seqResult (ingressRun s xs)
        (ingressRun (ingressRun s xs).state
          (xs.drop (ingressRun s xs).consumed ++ ys)) := by
  have h' : (ingressLoop (fuelFor s xs) s xs).connError = ErrorCode.NO_ERROR := h
  have happ := ingressLoop_append (fuelFor s xs) (fuelFor s (xs ++ ys)) s xs ys
    (Nat.le_refl _) (Nat.le_refl _)
  rw [if_pos h'] at happ
  exact happ

/-- `ingressRun` restatement of the stall property. -/
theorem ingressRun_stall (s : CodecState) (b : List Nat)
    (h : (ingressRun s b).connError = ErrorCode.NO_ERROR) :
    ingressStep (ingressRun s b).state (b.drop (ingressRun s b).consumed) =
      none := by
  have h' : (ingressLoop (fuelFor s b) s b).connError = ErrorCode.NO_ERROR := h
  exact ingressLoop_stall (fuelFor s b) s b (Nat.le_refl _) h'

/-- A codec waiting for a frame header makes no progress on fewer than 9
bytes. -/
theorem ingressStep_none_of_needHeader (s : CodecState) (b : List Nat)
    (hnh : s.needHeader = true) (hlen : b.length < 9) :
    ingressStep s b = none := by
  unfold ingressStep
  by_cases h1 : s.needConnectionPreface = true
  · rw [if_pos h1, if_neg (by omega)]
  · rw [if_neg h1, if_pos hnh, if_neg (by omega)]

/-- Chunked delivery agrees with the single-buffer run: feeding chunks one at
a time (resubmitting each unconsumed suffix with the following chunk) from a
state whose residual is stalled produces the same final state, total
consumption and event sequence as one run over the concatenation, provided
that run is error-free. -/
theorem feedChunks_spec :
    ∀ (chunks : List (List Nat)) (s : CodecState) (leftover : List Nat),
      ingressStep s leftover = none →
      (ingressRun s (leftover ++ chunks.flatten)).connError =
        ErrorCode.NO_ERROR →
      feedChunks s leftover chunks =
        ((ingressRun s (leftover ++ chunks.flatten)).state,
          (ingressRun s (leftover ++ chunks.flatten)).consumed,
          (ingressRun s (leftover ++ chunks.flatten)).events) := by
  intro chunks
  induction chunks with
  | nil =>
    intro s leftover hstall _
    have hrun : ingressRun s (leftover ++ List.flatten []) =
        { state := s, consumed := 0, events := []
          connError := ErrorCode.NO_ERROR } := by
      rw [List.flatten_nil, List.append_nil]
      unfold ingressRun
      obtain ⟨m, hm⟩ : ∃ m, fuelFor s leftover = m + 1 :=
        ⟨fuelFor s leftover - 1, by have := fuelFor_ge_two s leftover; omega⟩
      rw [hm, ingressLoop, hstall]
    rw [feedChunks, hrun]
  | cons c cs ih =>
    intro s leftover hstall hok
    have hassoc : leftover ++ (c :: cs).flatten = (leftover ++ c) ++ cs.flatten := by
      rw [List.flatten_cons, List.append_assoc]
    rw [hassoc] at hok ⊢
    have hok1 : (ingressRun s (leftover ++ c)).connError = ErrorCode.NO_ERROR := by
      by_contra hbad
      rw [ingressRun_append_err s (leftover ++ c) cs.flatten hbad] at hok
      exact hbad hok
    have hdecomp := ingressRun_append_ok s (leftover ++ c) cs.flatten hok1
    have hstall2 : ingressStep (ingressRun s (leftover ++ c)).state
        ((leftover ++ c).drop (ingressRun s (leftover ++ c)).consumed) = none :=
      ingressRun_stall s (leftover ++ c) hok1
    have hok2 : (ingressRun (ingressRun s (leftover ++ c)).state
        ((leftover ++ c).drop (ingressRun s (leftover ++ c)).consumed ++
          cs.flatten)).connError = ErrorCode.NO_ERROR := by
      rw [hdecomp] at hok
      exact hok
    have hih := ih (ingressRun s (leftover ++ c)).state
      ((leftover ++ c).drop (ingressRun s (leftover ++ c)).consumed) hstall2 hok2
    rw [feedChunks]
    have honi : onIngress s (leftover ++ c) =
        ((ingressRun s (leftover ++ c)).state,
          (ingressRun s (leftover ++ c)).consumed,
          (ingressRun s (leftover ++ c)).events) := by
      unfold onIngress
      dsimp only
      rw [if_pos hok1, List.append_nil]
    rw [honi]
    dsimp only
    rw [hih, hdecomp]
    simp only [seqResult_state, seqResult_consumed, seqResult_events]

/-- C3 (amended): for every way of splitting a byte stream into chunks fed
sequentially to `onIngress` (resubmitting unconsumed suffixes with the
following data), the resulting callback sequence, total consumption and final
state are identical to a single `onIngress` call on the concatenation,
PROVIDED the concatenated stream parses without a connection error.  (When a
connection error occurs the equivalence fails: the loop-local error flag is
reset by the next call, see the counterexample.) -/
theorem c3_chunked_ingress (s₀ : CodecState) (chunks : List (List Nat))
    (hstart : s₀.needHeader = true)
    (hok : (ingressRun s₀ chunks.flatten).connError = ErrorCode.NO_ERROR) :
    feedChunks s₀ [] chunks = onIngress s₀ chunks.flatten := by
  have hstall : ingressStep s₀ [] = none :=
    ingressStep_none_of_needHeader s₀ [] hstart (by simp)
  have h := feedChunks_spec chunks s₀ [] hstall
    (by rw [List.nil_append]; exact hok)
  rw [List.nil_append] at h
  rw [h]
  unfold onIngress
  dsimp only
  rw [if_pos hok, List.append_nil]

/-- C3 witness: the server preface split mid-way plus an empty SETTINGS frame,
fed as two chunks, consumes 33 bytes and emits `onSettings []` exactly as the
single-buffer call does. -/
theorem c3_chunked_ingress_witness :
    feedChunks (initialCodecState TransportDirection.DOWNSTREAM) []
        [prefaceBytes.take 10,
          prefaceBytes.drop 10 ++ [0, 0, 0, 4, 0, 0, 0, 0, 0]] =
      onIngress (initialCodecState TransportDirection.DOWNSTREAM)
        ([prefaceBytes.take 10,
          prefaceBytes.drop 10 ++ [0, 0, 0, 4, 0, 0, 0, 0, 0]].flatten) :=
  c3_chunked_ingress (initialCodecState TransportDirection.DOWNSTREAM)
    [prefaceBytes.take 10, prefaceBytes.drop 10 ++ [0, 0, 0, 4, 0, 0, 0, 0, 0]]
    (by decide) (by decide)

/-- C3 counterexample: after a bad connection preface (24 zero bytes) the
single call stops with the connection error having consumed 24 bytes, but
chunked delivery re-enters `onIngress` with a fresh local error flag and goes
on to consume a following 9-byte unknown frame header, for 33 bytes total —
so callback/consumption equivalence fails on erroring streams. -/
theorem c3_chunked_ingress_counterexample :
    (feedChunks (initialCodecState TransportDirection.DOWNSTREAM) []
        [List.replicate 24 0, [0, 0, 0, 119, 0, 0, 0, 0, 0]]).2.1 = 33 ∧
    (onIngress (initialCodecState TransportDirection.DOWNSTREAM)
        ([List.replicate 24 0, [0, 0, 0, 119, 0, 0, 0, 0, 0]].flatten)).2.1 =
      24 ∧
    (33 : Nat) ≠ 24 := by
  refine ⟨?_, ?_, ?_⟩ <;> decide

/-- C10 witness: a CLOSED downstream codec receiving HEADERS on new stream 5
without END_HEADERS drops it silently but arms the interlock on stream 5. -/
theorem c10_closed_headers_drop_witness :
    parseFrame
        { (initialCodecState TransportDirection.DOWNSTREAM) with
            sessionClosing := ClosingState.CLOSED
            curHeader := { length := 3, ftype := 1, flags := 0, stream := 5 } }
        [1, 2, 3] =
      { state :=
          { (initialCodecState TransportDirection.DOWNSTREAM) with
              sessionClosing := ClosingState.CLOSED
              curHeader := { length := 3, ftype := 1, flags := 0, stream := 5 }
              lastStreamID := 5
              expectedContinuation := if 0 &&& kFlagEndHeaders = 0 then 5 else 0 }
        events := []
        err := ErrorCode.NO_ERROR } :=
  c10_closed_headers_drop _ [1, 2, 3] rfl rfl rfl rfl (by decide) (by decide)
    (by decide) (by decide) (by decide)

end HTTP2
